import Mathlib

/-!
# Gold-price tracker: trading-signal and position-simulation core

Shallow embedding of `demo-edit-file/index.js` (and its twin
`demo-edit-file/server.js`).  JavaScript numbers are modelled by exact
rationals `ℚ`; module-level variables become the fields of `State`;
`new Date()` becomes an explicit clock argument; console output is not
modelled.
-/

namespace GoldTracker

/-! ## Data model -/

/-- The three signal strings `"LONG"`, `"SHORT"`, `"WAIT"`. -/
inductive Signal where
  | LONG
  | SHORT
  | WAIT
  deriving DecidableEq, Repr

/-- The `indicators` object of an analysis result.  The source renders each
number with `toFixed`; the embedding keeps the numbers themselves. -/
structure Indicators where
  ma5 : ℚ
  ma10 : ℚ
  ma20 : ℚ
  currentPrice : ℚ
  momentum : ℚ
  momentumPercent : ℚ
  volatilityPercent : ℚ
  deriving DecidableEq, Repr

/-- The object returned by `analyzeMarket`.  The early return on a short
history has no `indicators` property, hence the `Option`. -/
structure AnalysisResult where
  signal : Signal
  reason : String
  confidence : ℚ
  indicators : Option Indicators
  deriving DecidableEq, Repr

/-- The object stored in `currentPosition` by `openPosition`. -/
structure Position where
  type : Signal
  entryPrice : ℚ
  margin : ℚ
  leverage : ℚ
  openTime : ℕ
  deriving DecidableEq, Repr

/-- The `tradeResult` object appended to `tradeHistory` by `closePosition`. -/
structure TradeResult where
  type : Signal
  entryPrice : ℚ
  exitPrice : ℚ
  profitLoss : ℚ
  openTime : ℕ
  closeTime : ℕ
  capitalAfter : ℚ
  deriving DecidableEq, Repr

/-- The module-level mutable variables of `index.js`. -/
structure State where
  tradingCapital : ℚ
  currentPosition : Option Position
  tradeHistory : List TradeResult
  currentGoldPriceVND : ℚ
  priceHistory : List ℚ
  deriving DecidableEq, Repr

/-- The constant `MAX_MARGIN = 0.3`. -/
def MAX_MARGIN : ℚ := 3 / 10

/-- The values the module-level variables are initialised with. -/
def initialState : State :=
  { tradingCapital := 10000000
    currentPosition := none
    tradeHistory := []
    currentGoldPriceVND := 0
    priceHistory := [] }

/-! ## Price history -/

/-- The statements `priceHistory.push(p); if (priceHistory.length > 50)
priceHistory.shift();` of `displayGoldPrice` / `updateGoldData`, on the
array alone. -/
def pushPrice (priceHistory : List ℚ) (p : ℚ) : List ℚ :=
  let pushed := priceHistory ++ [p]
  if pushed.length > 50 then pushed.tail else pushed

/-- The state change of `displayGoldPrice` once the quote has been converted
to the price `p`: `currentGoldPriceVND = p`, then the push with eviction. -/
def displayGoldPrice (s : State) (p : ℚ) : State :=
  { s with currentGoldPriceVND := p, priceHistory := pushPrice s.priceHistory p }

/-- The array method `data.slice(-k)` for a natural number `k`: the start
index is `max (length - k) 0`, and `-0` is `0`, the whole array. -/
def sliceLast (data : List ℚ) (k : ℕ) : List ℚ :=
  if k = 0 then data else data.drop (data.length - k)

/-- The function `calculateMovingAverage(data, period)`.  `data[data.length - 1]`
is `undefined` on the empty array, and `|| 0` turns `undefined` and the falsy
number `0` into `0`. -/
def calculateMovingAverage (data : List ℚ) (period : ℕ) : ℚ :=
  if data.length < period then
    match data.getLast? with
    | none => 0
    | some v => if v = 0 then 0 else v
  else
    let slice := sliceLast data period
    let sum := slice.foldl (fun acc val => acc + val) 0
    sum / period

/-- The call `Math.max(...xs)` on a non-empty argument list (the source only
spreads the last ten samples of a history of at least twenty). -/
def mathMax : List ℚ → ℚ
  | [] => 0
  | x :: xs => xs.foldl max x

/-- The call `Math.min(...xs)` on a non-empty argument list. -/
def mathMin : List ℚ → ℚ
  | [] => 0
  | x :: xs => xs.foldl min x

/-- Array read `a[i]` at a natural index; the reads of `analyzeMarket` are in
range because of its length guard. -/
def idx (a : List ℚ) (i : ℕ) : ℚ := a.getD i 0

/-! ## Market analysis -/

/-- The `if / else if` chain of `analyzeMarket` that chooses `signal`,
`reason` and `confidence` from the indicators, before the volatility check.
The variables start as `"WAIT"`, `""`, `0`. -/
def trendRules (ma5 ma10 ma20 currentPrice momentum momentumPercent : ℚ) :
    Signal × String × ℚ :=
  if ma5 > ma10 ∧ ma10 > ma20 then
    if momentum > 0 ∧ currentPrice > ma5 then
      (Signal.LONG, "Xu hướng tăng mạnh (MA5 > MA10 > MA20) + Momentum dương",
        min 90 (60 + |momentumPercent| * 10))
    else
      (Signal.WAIT, "", 0)
  else if ma5 < ma10 ∧ ma10 < ma20 then
    if momentum < 0 ∧ currentPrice < ma5 then
      (Signal.SHORT, "Xu hướng giảm mạnh (MA5 < MA10 < MA20) + Momentum âm",
        min 90 (60 + |momentumPercent| * 10))
    else
      (Signal.WAIT, "", 0)
  else if ma5 > ma10 ∧ currentPrice > ma10 ∧ momentum > 0 then
    (Signal.LONG, "Xu hướng tăng (MA5 > MA10) + Giá trên MA10",
      min 75 (50 + |momentumPercent| * 5))
  else if ma5 < ma10 ∧ currentPrice < ma10 ∧ momentum < 0 then
    (Signal.SHORT, "Xu hướng giảm (MA5 < MA10) + Giá dưới MA10",
      min 75 (50 + |momentumPercent| * 5))
  else
    (Signal.WAIT, "Thị trường sideway, không có tín hiệu rõ ràng", 0)

/-- The `const` declarations of `analyzeMarket` after its length guard: the
three moving averages, the current price, momentum and volatility. -/
def computeIndicators (priceHistory : List ℚ) : Indicators :=
  let ma5 := calculateMovingAverage priceHistory 5
  let ma10 := calculateMovingAverage priceHistory 10
  let ma20 := calculateMovingAverage priceHistory 20
  let currentPrice := idx priceHistory (priceHistory.length - 1)
  let momentum := currentPrice - idx priceHistory (priceHistory.length - 6)
  let momentumPercent := momentum / idx priceHistory (priceHistory.length - 6) * 100
  let recentPrices := sliceLast priceHistory 10
  let volatility := mathMax recentPrices - mathMin recentPrices
  let volatilityPercent := volatility / currentPrice * 100
  { ma5 := ma5
    ma10 := ma10
    ma20 := ma20
    currentPrice := currentPrice
    momentum := momentum
    momentumPercent := momentumPercent
    volatilityPercent := volatilityPercent }

/-- The function `analyzeMarket()`, reading the global `priceHistory`: the
length guard, the indicators, the trend rules, then the volatility check
`volatilityPercent < 0.05 && signal !== "WAIT"`. -/
def analyzeMarket (priceHistory : List ℚ) : AnalysisResult :=
  if priceHistory.length < 20 then
    { signal := Signal.WAIT
      reason := "Chưa đủ dữ liệu lịch sử (cần ít nhất 20 điểm)"
      confidence := 0
      indicators := none }
  else
    let ind := computeIndicators priceHistory
    let chosen :=
      trendRules ind.ma5 ind.ma10 ind.ma20 ind.currentPrice ind.momentum ind.momentumPercent
    let overridden : Signal × String × ℚ :=
      if ind.volatilityPercent < 5 / 100 ∧ chosen.1 ≠ Signal.WAIT then
        (Signal.WAIT, "Độ biến động quá thấp, thị trường trầm", 0)
      else chosen
    { signal := overridden.1
      reason := overridden.2.1
      confidence := overridden.2.2
      indicators := some ind }

/-! ## Positions -/

/-- The function `openPosition(type, price)`; `now` is the value of
`new Date()`. -/
def openPosition (s : State) (type : Signal) (price : ℚ) (now : ℕ) : State :=
  let margin := s.tradingCapital * MAX_MARGIN
  { s with
    currentPosition := some
      { type := type
        entryPrice := price
        margin := margin
        leverage := 1 / MAX_MARGIN
        openTime := now } }

/-- The function `closePosition(exitPrice)`; `now` is the value of
`new Date()`. -/
def closePosition (s : State) (exitPrice : ℚ) (now : ℕ) : State :=
  match s.currentPosition with
  | none => s
  | some pos =>
    let priceDiff := exitPrice - pos.entryPrice
    let profitLoss :=
      if pos.type = Signal.LONG then
        priceDiff / pos.entryPrice * pos.margin * pos.leverage
      else
        -priceDiff / pos.entryPrice * pos.margin * pos.leverage
    let tradingCapital := s.tradingCapital + profitLoss
    let tradeResult : TradeResult :=
      { type := pos.type
        entryPrice := pos.entryPrice
        exitPrice := exitPrice
        profitLoss := profitLoss
        openTime := pos.openTime
        closeTime := now
        capitalAfter := tradingCapital }
    { s with
      tradingCapital := tradingCapital
      tradeHistory := s.tradeHistory ++ [tradeResult]
      currentPosition := none }

/-- The local `unrealizedPL` of `updateGoldData` (and of `displayGoldPrice`,
where it is computed inside `if (currentPosition)`): `0` without a position,
otherwise the ternary on `currentPosition.type === "LONG"` at the price
`currentGoldPriceVND`. -/
def unrealizedPL (s : State) : ℚ :=
  match s.currentPosition with
  | none => 0
  | some pos =>
    if pos.type = Signal.LONG then
      (s.currentGoldPriceVND - pos.entryPrice) / pos.entryPrice * pos.margin * pos.leverage
    else
      (pos.entryPrice - s.currentGoldPriceVND) / pos.entryPrice * pos.margin * pos.leverage

/-! ## Trade tick -/

/-- The function `executeTrade()`; `now` is the value of `new Date()` in the
call it makes. -/
def executeTrade (s : State) (now : ℕ) : State :=
  if s.tradingCapital ≤ 0 then s
  else
    match s.currentPosition with
    | some _ => closePosition s s.currentGoldPriceVND now
    | none =>
      let analysis := analyzeMarket s.priceHistory
      if analysis.signal = Signal.LONG ∨ analysis.signal = Signal.SHORT then
        openPosition s analysis.signal s.currentGoldPriceVND now
      else s

/-- The two timer callbacks of `startGoldPriceTracker` as events: a price
refresh that obtained the price `p`, and a trade tick at time `now`. -/
inductive Event where
  | push (p : ℚ)
  | tick (now : ℕ)
  deriving DecidableEq, Repr

/-- One timer callback: `displayGoldPrice` for a refresh, `executeTrade` for a
trade tick. -/
def step (s : State) : Event → State
  | Event.push p => displayGoldPrice s p
  | Event.tick now => executeTrade s now

/-- The state after a sequence of timer callbacks, in order. -/
def run (s : State) (events : List Event) : State :=
  events.foldl step s

/-- The state-changing functions of the module as actions: a price refresh
that obtained the price `p`, `openPosition(type, price)`, `closePosition(exitPrice)`
and `executeTrade()`, each with the value of `new Date()` it would read. -/
inductive Action where
  | push (p : ℚ)
  | openPos (type : Signal) (price : ℚ) (now : ℕ)
  | closePos (exitPrice : ℚ) (now : ℕ)
  | trade (now : ℕ)
  deriving DecidableEq, Repr

/-- The state after one action. -/
def applyAction (s : State) : Action → State
  | Action.push p => displayGoldPrice s p
  | Action.openPos type price now => openPosition s type price now
  | Action.closePos exitPrice now => closePosition s exitPrice now
  | Action.trade now => executeTrade s now

/-- The state after a sequence of actions, in order. -/
def runActions (s : State) (actions : List Action) : State :=
  actions.foldl applyAction s

end GoldTracker

/-!
# Browser dice game (`diceGame/game.js`)

The four game variables and the parts of the page that `hold` writes: the
message box, the winner announced by `endGame`, the disabled state of the two
buttons (always set together) and whether the timer that passes the turn has
been scheduled.  Scores are natural numbers: they start at `0` and only die
rolls are added.
-/

namespace DiceGame

/-- The constant `TARGET_SCORE`. -/
def TARGET_SCORE : ℕ := 20

/-- The game variables `player1Score`, `player2Score`, `currentPlayer`,
`turnScore` with the page state written by `hold`: `message` is the text and
type last given to `showMessage`, `winner` the `winner` announced by `endGame`,
`buttonsDisabled` the `disabled` flag of `rollBtn` and `holdBtn`,
`switchPending` whether `setTimeout` has scheduled the turn change. -/
structure Game where
  player1Score : ℕ
  player2Score : ℕ
  currentPlayer : ℕ
  turnScore : ℕ
  message : Option (String × String)
  winner : Option String
  buttonsDisabled : Bool
  switchPending : Bool
  deriving DecidableEq, Repr

/-- The function `showMessage(text, type)`. -/
def showMessage (g : Game) (text type : String) : Game :=
  { g with message := some (text, type) }

/-- The function `endGame()`: disables both buttons and announces the winner. -/
def endGame (g : Game) : Game :=
  { g with
    buttonsDisabled := true
    winner := some (if g.currentPlayer = 1 then "Player 1" else "Player 2") }

/-- The function `switchPlayer()`. -/
def switchPlayer (g : Game) : Game :=
  let g1 := { g with currentPlayer := if g.currentPlayer = 1 then 2 else 1, turnScore := 0 }
  let g2 := showMessage g1 ("Player " ++ toString g1.currentPlayer ++ "'s turn!") "success"
  { g2 with buttonsDisabled := false }

/-- The function `hold()`.  The callback given to `setTimeout` is not run here;
it is recorded as `switchPending`. -/
def hold (g : Game) : Game :=
  if g.turnScore = 0 then
    showMessage g "You need to roll at least once before holding!" "warning"
  else
    let g1 :=
      if g.currentPlayer = 1 then { g with player1Score := g.player1Score + g.turnScore }
      else { g with player2Score := g.player2Score + g.turnScore }
    let g2 := showMessage g1
      ("Player " ++ toString g1.currentPlayer ++ " banks " ++ toString g1.turnScore ++
        " points!") "success"
    if (g2.currentPlayer = 1 ∧ g2.player1Score ≥ TARGET_SCORE) ∨
        (g2.currentPlayer = 2 ∧ g2.player2Score ≥ TARGET_SCORE) then
      endGame g2
    else
      { g2 with switchPending := true }

/-- The callback `() => { turnScore = 0; switchPlayer(); }` scheduled by `hold`. -/
def holdTimeout (g : Game) : Game :=
  switchPlayer { g with turnScore := 0, switchPending := false }

/-- A game in progress: player 2 to move, nothing rolled yet in this turn. -/
def midGame : Game :=
  { player1Score := 12
    player2Score := 7
    currentPlayer := 2
    turnScore := 0
    message := none
    winner := none
    buttonsDisabled := false
    switchPending := false }

end DiceGame

/-!
# Terminal dice game helpers (`diceGame/pigdice.js`)
-/

namespace PigDice

/-- The object returned by `processTurn`. -/
structure TurnResult where
  turnScore : ℚ
  turnOver : Bool
  deriving DecidableEq, Repr

/-- The function `processTurn(rollValue, currentTurnScore)`. -/
def processTurn (rollValue currentTurnScore : ℚ) : TurnResult :=
  if rollValue = 1 then
    { turnScore := 0, turnOver := true }
  else
    { turnScore := currentTurnScore + rollValue, turnOver := false }

/-- Substring search on character lists: does `sub` occur in the list at some
position. -/
def includesChars : List Char → List Char → Bool
  | [], sub => sub.isEmpty
  | c :: cs, sub => sub.isPrefixOf (c :: cs) || includesChars cs sub

/-- The string method `s.includes(sub)`. -/
def includes (s sub : String) : Bool :=
  includesChars s.data sub.data

/-- The function `displayDice(value)` of `pigdice.js`: the five rows of the face
joined by newlines, or `"Invalid die value"` when `dice[value]` is missing. -/
def displayDice (value : ℕ) : String :=
  match value with
  | 1 => "\n".intercalate
      ["┌─────────┐",
       "│         │",
       "│    ●    │",
       "│         │",
       "└─────────┘"]
  | 2 => "\n".intercalate
      ["┌─────────┐",
       "│  ●      │",
       "│         │",
       "│      ●  │",
       "└─────────┘"]
  | 3 => "\n".intercalate
      ["┌─────────┐",
       "│  ●      │",
       "│    ●    │",
       "│      ●  │",
       "└─────────┘"]
  | 4 => "\n".intercalate
      ["┌─────────┐",
       "│  ●   ●  │",
       "│         │",
       "│  ●   ●  │",
       "└─────────┘"]
  | 5 => "\n".intercalate
      ["┌─────────┐",
       "│  ●   ●  │",
       "│    ●    │",
       "│  ●   ●  │",
       "└─────────┘"]
  | 6 => "\n".intercalate
      ["┌─────────┐",
       "│  ●   ●  │",
       "│  ●   ●  │",
       "│  ●   ●  │",
       "└─────────┘"]
  | _ => "Invalid die value"

/-- The function `getRules()`: the template literal, newlines included. -/
def getRules : String :=
  "\nRULES OF PIG:\n- Players take turns rolling a die\n- Each roll adds to your turn score\n- You can choose to ROLL again or HOLD to bank your points\n- If you roll a 1, you lose all points for that turn and your turn ends\n- If you HOLD, your turn score is added to your total score\n- First player to reach 20 points wins!\n"

end PigDice

/-!
# Area formulas (`demo-1/areaUtils.js`)
-/

namespace AreaUtils

/-! ## JavaScript number arithmetic

Every arithmetic operation on JavaScript numbers returns the exact result
rounded to the nearest IEEE 754 binary64 value, ties to the even significand.
`roundDouble` is that rounding on rationals, subnormal range included.  Results
beyond the largest finite double, which the source turns into `Infinity`, are
not represented.
-/

/-- The largest `k` with `2 ^ k ≤ n`, for `n ≥ 1` (and `0` for `n = 0`); the
first argument bounds the number of halvings. -/
def log2Floor : ℕ → ℕ → ℕ
  | 0, _ => 0
  | fuel + 1, n => if n < 2 then 0 else log2Floor fuel (n / 2) + 1

/-- The power `2 ^ e` for an integer exponent. -/
def pow2 (e : ℤ) : ℚ :=
  if 0 ≤ e then (2 : ℚ) ^ e.toNat else 1 / (2 : ℚ) ^ (-e).toNat

/-- The exponent `e` with `2 ^ e ≤ |x| < 2 ^ (e + 1)`, for `x ≠ 0`. -/
def binadeExponent (x : ℚ) : ℤ :=
  let e0 : ℤ := (log2Floor x.num.natAbs x.num.natAbs : ℤ) - (log2Floor x.den x.den : ℤ)
  if pow2 e0 ≤ |x| then e0 else e0 - 1

/-- The integer nearest to `y`, the even one of the two when `y` lies halfway. -/
def roundHalfEven (y : ℚ) : ℤ :=
  let f := ⌊y⌋
  if y - f < 1 / 2 then f
  else if 1 / 2 < y - f then f + 1
  else if f % 2 = 0 then f else f + 1

/-- The binary64 value nearest to `x`: 53 significant bits in the binade of `x`,
with the fixed spacing `2 ^ (-1074)` below `2 ^ (-1022)`. -/
def roundDouble (x : ℚ) : ℚ :=
  if x = 0 then 0
  else
    let e := max (binadeExponent x) (-1022)
    let quantum := pow2 (e - 52)
    (roundHalfEven (x / quantum) : ℚ) * quantum

/-- The number `Math.sqrt(radicand)`, kept as its argument: the root of a
rational is in general not rational. -/
structure SquareRoot where
  radicand : ℚ
  deriving DecidableEq, Repr

deriving instance DecidableEq for Except

/-- The function `triangleAreaHeron(a, b, c)`; `fl` is the rounding applied to
the result of each `+`, `-`, `*` and `/` (`roundDouble` for the source's
numbers, `id` for exact arithmetic).  `throw new Error(msg)` is
`Except.error msg`, and the returned `Math.sqrt(...)` is given by its
radicand. -/
def triangleAreaHeron (fl : ℚ → ℚ) (a b c : ℚ) : Except String SquareRoot :=
  if a ≤ 0 ∨ b ≤ 0 ∨ c ≤ 0 then
    Except.error "Các cạnh phải lớn hơn 0"
  else if fl (a + b) ≤ c ∨ fl (a + c) ≤ b ∨ fl (b + c) ≤ a then
    Except.error "Ba cạnh không tạo thành tam giác hợp lệ"
  else
    let s := fl (fl (fl (a + b) + c) / 2)
    Except.ok { radicand := fl (fl (fl (s * fl (s - a)) * fl (s - b)) * fl (s - c)) }

end AreaUtils

namespace GoldTracker

/-! ## Concrete inputs -/

/-- Fifty-one distinct samples `1, 2, ..., 51`. -/
def samples51 : List ℚ := (List.range 51).map (fun i => ((i + 1 : ℕ) : ℚ))

/-- Twenty samples rising by one per step. -/
def rising20 : List ℚ :=
  [100, 101, 102, 103, 104, 105, 106, 107, 108, 109,
   110, 111, 112, 113, 114, 115, 116, 117, 118, 119]

/-- Twenty samples falling by one per step. -/
def falling20 : List ℚ :=
  [119, 118, 117, 116, 115, 114, 113, 112, 111, 110,
   109, 108, 107, 106, 105, 104, 103, 102, 101, 100]

/-- Nineteen rising samples followed by a dip below the five-sample average. -/
def risingDip20 : List ℚ :=
  [100, 101, 102, 103, 104, 105, 106, 107, 108, 109,
   110, 111, 112, 113, 114, 115, 116, 117, 118, 116]

/-- Nineteen falling samples followed by a rebound above the five-sample
average. -/
def fallingRebound20 : List ℚ :=
  [119, 118, 117, 116, 115, 114, 113, 112, 111, 110,
   109, 108, 107, 106, 105, 104, 103, 102, 101, 103]

/-- Ten high samples, five lower flat ones, then five rising: the five-sample
average is above the ten-sample one, which is below the twenty-sample one. -/
def moderateUp20 : List ℚ :=
  [120, 120, 120, 120, 120, 120, 120, 120, 120, 120,
   100, 100, 100, 100, 100, 101, 102, 103, 104, 105]

/-- Ten low samples, five higher flat ones, then five falling. -/
def moderateDown20 : List ℚ :=
  [80, 80, 80, 80, 80, 80, 80, 80, 80, 80,
   100, 100, 100, 100, 100, 99, 98, 97, 96, 95]

/-- Twenty samples rising by one from one million: a strong uptrend whose
ten-sample range is below 0.05 percent of the current price. -/
def lowVolatility20 : List ℚ :=
  [1000000, 1000001, 1000002, 1000003, 1000004, 1000005, 1000006, 1000007, 1000008, 1000009,
   1000010, 1000011, 1000012, 1000013, 1000014, 1000015, 1000016, 1000017, 1000018, 1000019]

/-- The initial state after `openPosition("LONG", 1000)` at time `1`. -/
def longAt1000 : State := openPosition initialState Signal.LONG 1000 1

/-- The initial state after `openPosition("SHORT", 1000)` at time `1`. -/
def shortAt1000 : State := openPosition initialState Signal.SHORT 1000 1

/-- Twenty price refreshes with the samples of `rising20`. -/
def risingPushes : List Event := rising20.map Event.push

/-- Fifty samples all equal to `100`. -/
def constant50 : List ℚ := List.replicate 50 100

/-- The state after `openPosition("SHORT", 1000)` and `closePosition(2100)` from
the initial state: no position, capital `-1000000`. -/
def afterShortLoss : State :=
  closePosition (openPosition initialState Signal.SHORT 1000 1) 2100 2

/-- The state `longAt1000` after a price refresh with the price `1100`. -/
def longAt1000Priced : State := displayGoldPrice longAt1000 1100

/-- Open a `LONG` at `1000`, close at `1100`, refresh the price to `1200`, open
a `SHORT` at `1200`, open a `LONG` at `1250` over it, close at `1300`. -/
def tradedActions : List Action :=
  [Action.openPos Signal.LONG 1000 1, Action.closePos 1100 2, Action.push 1200,
   Action.openPos Signal.SHORT 1200 3, Action.openPos Signal.LONG 1250 4,
   Action.closePos 1300 5, Action.trade 6]

/-! ## Price history: capacity and eviction order -/

theorem pushPrice_length_le (h : List ℚ) (p : ℚ) (hh : h.length ≤ 50) :
    (pushPrice h p).length ≤ 50 := by
  unfold pushPrice
  simp only [List.length_append, List.length_singleton]
  split_ifs with hc
  · simp only [List.length_tail, List.length_append, List.length_singleton]
    omega
  · simp only [List.length_append, List.length_singleton]
    omega

theorem foldl_pushPrice_length_le (xs : List ℚ) :
    ∀ h : List ℚ, h.length ≤ 50 → (xs.foldl pushPrice h).length ≤ 50 := by
  induction xs with
  | nil => intro h hh; simpa using hh
  | cons x xs ih =>
    intro h hh
    simp only [List.foldl_cons]
    exact ih _ (pushPrice_length_le h x hh)

/-- C1: starting from the empty price history, after every push of every
sequence of pushes (every prefix `xs.take k` of the pushed samples) the
history holds at most 50 samples. -/
theorem priceHistory_length_never_exceeds_50 (xs : List ℚ) (k : ℕ) :
    ((xs.take k).foldl pushPrice []).length ≤ 50 :=
  foldl_pushPrice_length_le (xs.take k) [] (by simp)

theorem pushPrice_eq_drop (h : List ℚ) (p : ℚ) (hh : h.length ≤ 50) :
    pushPrice h p = (h ++ [p]).drop ((h ++ [p]).length - 50) := by
  unfold pushPrice
  simp only [List.length_append, List.length_singleton]
  split_ifs with hc
  · have h50 : h.length + 1 - 50 = 1 := by omega
    rw [h50, List.drop_one]
  · have h0 : h.length + 1 - 50 = 0 := by omega
    rw [h0, List.drop_zero]

theorem foldl_pushPrice_eq_drop (xs : List ℚ) :
    ∀ h : List ℚ, h.length ≤ 50 →
      xs.foldl pushPrice h = (h ++ xs).drop ((h ++ xs).length - 50) := by
  induction xs with
  | nil =>
    intro h hh
    have h0 : (h ++ []).length - 50 = 0 := by simp; omega
    rw [h0]; simp
  | cons x xs ih =>
    intro h hh
    simp only [List.foldl_cons]
    rw [ih _ (pushPrice_length_le h x hh), pushPrice_eq_drop h x hh]
    have hd : (h ++ [x]).length - 50 ≤ (h ++ [x]).length := Nat.sub_le _ _
    rw [← List.drop_append_of_le_length hd, List.drop_drop]
    simp only [List.length_append, List.length_drop, List.length_singleton, List.length_cons,
      List.append_assoc, List.singleton_append]
    simp only [List.length_nil, Nat.zero_add]
    have e : h.length + 1 - 50 + (h.length + (xs.length + 1) - (h.length + 1 - 50) - 50)
        = h.length + (xs.length + 1) - 50 := by omega
    rw [e]

/-- C2: eviction is oldest-first.  After pushing `xs` into the empty history the
history is `xs` without its first `length - 50` samples, that is the last
`min (length xs) 50` pushed samples in insertion order; after exactly 51 pushes
it is the pushed sequence without its first sample, so the slots hold the
second to the fifty-first pushed sample. -/
theorem priceHistory_keeps_last_50 :
    (∀ xs : List ℚ,
      xs.foldl pushPrice [] = xs.drop (xs.length - 50) ∧
      (xs.foldl pushPrice []).length = min xs.length 50) ∧
    (∀ xs : List ℚ, xs.length = 51 → xs.foldl pushPrice [] = xs.tail) := by
  have key : ∀ xs : List ℚ, xs.foldl pushPrice [] = xs.drop (xs.length - 50) := by
    intro xs
    simpa using foldl_pushPrice_eq_drop xs [] (by simp)
  refine ⟨fun xs => ⟨key xs, ?_⟩, fun xs hlen => ?_⟩
  · rw [key xs, List.length_drop]; omega
  · rw [key xs, hlen, ← List.drop_one]

theorem priceHistory_keeps_last_50_witness :
    samples51.length = 51 ∧ samples51.foldl pushPrice [] = samples51.tail ∧
      (1 : ℚ) ∉ samples51.foldl pushPrice [] :=
  ⟨by decide, priceHistory_keeps_last_50.2 samples51 (by decide),
    by rw [priceHistory_keeps_last_50.2 samples51 (by decide)]; decide!⟩

/-! ## Moving average -/

theorem foldl_add_eq_sum (l : List ℚ) (a : ℚ) :
    l.foldl (fun acc val => acc + val) a = a + l.sum := by
  induction l generalizing a with
  | nil => simp
  | cons x xs ih => simp only [List.foldl_cons, List.sum_cons, ih]; ring

/-- C3: for a period of at least one, `calculateMovingAverage data period` is `0`
on the empty array, the last sample when the array is non-empty but shorter
than the period, and otherwise the sum of the last `period` samples (a list of
exactly `period` elements) divided by `period`.  The embedding takes `data` by
value and returns only the number: `slice` and `reduce` do not mutate. -/
theorem calculateMovingAverage_spec (data : List ℚ) (period : ℕ) (hp : 1 ≤ period) :
    (data = [] → calculateMovingAverage data period = 0) ∧
    (∀ hne : data ≠ [], data.length < period →
      calculateMovingAverage data period = data.getLast hne) ∧
    (period ≤ data.length →
      (data.drop (data.length - period)).length = period ∧
      calculateMovingAverage data period =
        (data.drop (data.length - period)).sum / period) := by
  refine ⟨?_, ?_, ?_⟩
  · intro he
    subst he
    have hlt : ([] : List ℚ).length < period := by
      simp only [List.length_nil]; omega
    unfold calculateMovingAverage
    rw [if_pos hlt]
    rfl
  · intro hne hlt
    unfold calculateMovingAverage
    rw [if_pos hlt, List.getLast?_eq_getLast _ hne]
    by_cases hz : data.getLast hne = 0
    · simp [hz]
    · simp [hz]
  · intro hle
    refine ⟨by rw [List.length_drop]; omega, ?_⟩
    unfold calculateMovingAverage sliceLast
    have hp0 : period ≠ 0 := by omega
    rw [if_neg (by omega), if_neg hp0]
    simp only [foldl_add_eq_sum, zero_add]

theorem calculateMovingAverage_spec_witness :
    calculateMovingAverage [] 5 = 0 ∧
    calculateMovingAverage [7, 8, 9] 5 = 9 ∧
    calculateMovingAverage [1, 2, 3, 4, 5, 6] 3 = (4 + 5 + 6) / 3 :=
  ⟨(calculateMovingAverage_spec [] 5 (by decide)).1 rfl,
   (calculateMovingAverage_spec [7, 8, 9] 5 (by decide)).2.1 (by simp) (by decide),
   by
    have h := ((calculateMovingAverage_spec [1, 2, 3, 4, 5, 6] 3 (by decide)).2.2
      (by decide)).2
    rw [h]; norm_num⟩

/-! ## Market analysis: insufficient history -/

/-- C4: on a history of fewer than 20 samples (the empty one included)
`analyzeMarket` returns signal `WAIT` with confidence `0`, and the result
carries no indicators: none is computed. -/
theorem analyzeMarket_insufficient_history (h : List ℚ) (hlen : h.length < 20) :
    (analyzeMarket h).signal = Signal.WAIT ∧
    (analyzeMarket h).confidence = 0 ∧
    (analyzeMarket h).indicators = none := by
  unfold analyzeMarket
  rw [if_pos hlen]
  exact ⟨rfl, rfl, rfl⟩

theorem analyzeMarket_insufficient_history_witness :
    (analyzeMarket []).signal = Signal.WAIT ∧
    (analyzeMarket []).confidence = 0 ∧
    (analyzeMarket []).indicators = none :=
  analyzeMarket_insufficient_history [] (by decide)

/-! ## Market analysis: trend rules and volatility check -/

theorem analyzeMarket_signal (h : List ℚ) (hlen : 20 ≤ h.length) :
    (analyzeMarket h).signal =
      (if (computeIndicators h).volatilityPercent < 5 / 100 ∧
          (trendRules (computeIndicators h).ma5 (computeIndicators h).ma10
            (computeIndicators h).ma20 (computeIndicators h).currentPrice
            (computeIndicators h).momentum (computeIndicators h).momentumPercent).1
            ≠ Signal.WAIT
        then Signal.WAIT
        else (trendRules (computeIndicators h).ma5 (computeIndicators h).ma10
            (computeIndicators h).ma20 (computeIndicators h).currentPrice
            (computeIndicators h).momentum (computeIndicators h).momentumPercent).1) := by
  unfold analyzeMarket
  rw [if_neg (by omega)]
  simp only
  split_ifs <;> rfl

theorem analyzeMarket_confidence (h : List ℚ) (hlen : 20 ≤ h.length) :
    (analyzeMarket h).confidence =
      (if (computeIndicators h).volatilityPercent < 5 / 100 ∧
          (trendRules (computeIndicators h).ma5 (computeIndicators h).ma10
            (computeIndicators h).ma20 (computeIndicators h).currentPrice
            (computeIndicators h).momentum (computeIndicators h).momentumPercent).1
            ≠ Signal.WAIT
        then 0
        else (trendRules (computeIndicators h).ma5 (computeIndicators h).ma10
            (computeIndicators h).ma20 (computeIndicators h).currentPrice
            (computeIndicators h).momentum (computeIndicators h).momentumPercent).2.2) := by
  unfold analyzeMarket
  rw [if_neg (by omega)]
  simp only
  split_ifs <;> rfl

theorem analyzeMarket_indicators (h : List ℚ) (hlen : 20 ≤ h.length) :
    (analyzeMarket h).indicators = some (computeIndicators h) := by
  unfold analyzeMarket
  rw [if_neg (by omega)]

theorem trendRules_strong_long {ma5 ma10 ma20 c m mp : ℚ}
    (h1 : ma5 > ma10) (h2 : ma10 > ma20) (h3 : m > 0) (h4 : c > ma5) :
    (trendRules ma5 ma10 ma20 c m mp).1 = Signal.LONG ∧
    (trendRules ma5 ma10 ma20 c m mp).2.2 = min 90 (60 + |mp| * 10) := by
  unfold trendRules
  rw [if_pos ⟨h1, h2⟩, if_pos ⟨h3, h4⟩]
  exact ⟨rfl, rfl⟩

theorem trendRules_strong_short {ma5 ma10 ma20 c m mp : ℚ}
    (h1 : ma5 < ma10) (h2 : ma10 < ma20) (h3 : m < 0) (h4 : c < ma5) :
    (trendRules ma5 ma10 ma20 c m mp).1 = Signal.SHORT ∧
    (trendRules ma5 ma10 ma20 c m mp).2.2 = min 90 (60 + |mp| * 10) := by
  unfold trendRules
  rw [if_neg (fun hc => absurd hc.1 (not_lt.mpr h1.le)), if_pos ⟨h1, h2⟩, if_pos ⟨h3, h4⟩]
  exact ⟨rfl, rfl⟩

theorem trendRules_moderate_long {ma5 ma10 ma20 c m mp : ℚ}
    (hno1 : ¬ (ma5 > ma10 ∧ ma10 > ma20)) (hno2 : ¬ (ma5 < ma10 ∧ ma10 < ma20))
    (h1 : ma5 > ma10) (h2 : c > ma10) (h3 : m > 0) :
    (trendRules ma5 ma10 ma20 c m mp).1 = Signal.LONG ∧
    (trendRules ma5 ma10 ma20 c m mp).2.2 = min 75 (50 + |mp| * 5) := by
  unfold trendRules
  rw [if_neg hno1, if_neg hno2, if_pos ⟨h1, h2, h3⟩]
  exact ⟨rfl, rfl⟩

theorem trendRules_moderate_short {ma5 ma10 ma20 c m mp : ℚ}
    (hno1 : ¬ (ma5 > ma10 ∧ ma10 > ma20)) (hno2 : ¬ (ma5 < ma10 ∧ ma10 < ma20))
    (h1 : ma5 < ma10) (h2 : c < ma10) (h3 : m < 0) :
    (trendRules ma5 ma10 ma20 c m mp).1 = Signal.SHORT ∧
    (trendRules ma5 ma10 ma20 c m mp).2.2 = min 75 (50 + |mp| * 5) := by
  unfold trendRules
  rw [if_neg hno1, if_neg hno2,
    if_neg (fun hc => absurd hc.1 (not_lt.mpr h1.le)), if_pos ⟨h1, h2, h3⟩]
  exact ⟨rfl, rfl⟩

theorem trendRules_wait_confidence (ma5 ma10 ma20 c m mp : ℚ)
    (hw : (trendRules ma5 ma10 ma20 c m mp).1 = Signal.WAIT) :
    (trendRules ma5 ma10 ma20 c m mp).2.2 = 0 := by
  unfold trendRules at hw ⊢
  split_ifs at hw ⊢ <;> rfl

theorem analyzeMarket_of_volatile (h : List ℚ) (hlen : 20 ≤ h.length)
    (hvol : 5 / 100 ≤ (computeIndicators h).volatilityPercent) :
    (analyzeMarket h).signal =
      (trendRules (computeIndicators h).ma5 (computeIndicators h).ma10
        (computeIndicators h).ma20 (computeIndicators h).currentPrice
        (computeIndicators h).momentum (computeIndicators h).momentumPercent).1 ∧
    (analyzeMarket h).confidence =
      (trendRules (computeIndicators h).ma5 (computeIndicators h).ma10
        (computeIndicators h).ma20 (computeIndicators h).currentPrice
        (computeIndicators h).momentum (computeIndicators h).momentumPercent).2.2 := by
  rw [analyzeMarket_signal h hlen, analyzeMarket_confidence h hlen]
  have hn : ¬ (computeIndicators h).volatilityPercent < 5 / 100 := not_lt.mpr hvol
  rw [if_neg (fun hc => hn hc.1), if_neg (fun hc => hn hc.1)]
  exact ⟨rfl, rfl⟩

theorem foldl_max_spec (xs : List ℚ) :
    ∀ a : ℚ, xs.foldl max a ∈ a :: xs ∧ ∀ y ∈ a :: xs, y ≤ xs.foldl max a := by
  induction xs with
  | nil => intro a; simp
  | cons x xs ih =>
    intro a
    obtain ⟨hmem, hle⟩ := ih (max a x)
    simp only [List.foldl_cons]
    constructor
    · rcases List.mem_cons.mp hmem with he | hin
      · rw [he]
        rcases max_choice a x with hc | hc
        · rw [hc]; exact List.mem_cons_self _ _
        · rw [hc]; exact List.mem_cons_of_mem _ (List.mem_cons_self _ _)
      · exact List.mem_cons_of_mem _ (List.mem_cons_of_mem _ hin)
    · intro y hy
      have hbase : max a x ≤ xs.foldl max (max a x) := hle _ (List.mem_cons_self _ _)
      rcases List.mem_cons.mp hy with he | hin
      · rw [he]; exact le_trans (le_max_left a x) hbase
      · rcases List.mem_cons.mp hin with he | hin2
        · rw [he]; exact le_trans (le_max_right a x) hbase
        · exact hle y (List.mem_cons_of_mem _ hin2)

theorem foldl_min_spec (xs : List ℚ) :
    ∀ a : ℚ, xs.foldl min a ∈ a :: xs ∧ ∀ y ∈ a :: xs, xs.foldl min a ≤ y := by
  induction xs with
  | nil => intro a; simp
  | cons x xs ih =>
    intro a
    obtain ⟨hmem, hle⟩ := ih (min a x)
    simp only [List.foldl_cons]
    constructor
    · rcases List.mem_cons.mp hmem with he | hin
      · rw [he]
        rcases min_choice a x with hc | hc
        · rw [hc]; exact List.mem_cons_self _ _
        · rw [hc]; exact List.mem_cons_of_mem _ (List.mem_cons_self _ _)
      · exact List.mem_cons_of_mem _ (List.mem_cons_of_mem _ hin)
    · intro y hy
      have hbase : xs.foldl min (min a x) ≤ min a x := hle _ (List.mem_cons_self _ _)
      rcases List.mem_cons.mp hy with he | hin
      · rw [he]; exact le_trans hbase (min_le_left a x)
      · rcases List.mem_cons.mp hin with he | hin2
        · rw [he]; exact le_trans hbase (min_le_right a x)
        · exact hle y (List.mem_cons_of_mem _ hin2)

theorem mathMax_spec (l : List ℚ) (hne : l ≠ []) :
    mathMax l ∈ l ∧ ∀ y ∈ l, y ≤ mathMax l := by
  cases l with
  | nil => exact absurd rfl hne
  | cons x xs => exact foldl_max_spec xs x

theorem mathMin_spec (l : List ℚ) (hne : l ≠ []) :
    mathMin l ∈ l ∧ ∀ y ∈ l, mathMin l ≤ y := by
  cases l with
  | nil => exact absurd rfl hne
  | cons x xs => exact foldl_min_spec xs x

theorem idx_last (h : List ℚ) (hne : h ≠ []) :
    idx h (h.length - 1) = h.getLast hne := by
  unfold idx
  rw [List.getLast_eq_getElem, List.getD_eq_getElem?_getD,
    List.getElem?_eq_getElem (by
      have := List.length_pos.mpr hne
      omega)]
  rfl

/-- C5: on a history of at least 20 positive samples whose volatility percent is
at least `0.05`, the strong-uptrend condition `ma5 > ma10 > ma20`,
`momentum > 0`, `current > ma5` gives `LONG`, and the strong-downtrend condition
`ma5 < ma10 < ma20`, `momentum < 0`, `current < ma5` gives `SHORT`, each with
confidence `min 90 (60 + |momentumPercent| * 10)`. -/
theorem analyzeMarket_strong_trend (h : List ℚ) (hlen : 20 ≤ h.length)
    (_hpos : ∀ x ∈ h, 0 < x)
    (hvol : 5 / 100 ≤ (computeIndicators h).volatilityPercent) :
    ((computeIndicators h).ma5 > (computeIndicators h).ma10 ∧
      (computeIndicators h).ma10 > (computeIndicators h).ma20 ∧
      (computeIndicators h).momentum > 0 ∧
      (computeIndicators h).currentPrice > (computeIndicators h).ma5 →
        (analyzeMarket h).signal = Signal.LONG ∧
        (analyzeMarket h).confidence =
          min 90 (60 + |(computeIndicators h).momentumPercent| * 10)) ∧
    ((computeIndicators h).ma5 < (computeIndicators h).ma10 ∧
      (computeIndicators h).ma10 < (computeIndicators h).ma20 ∧
      (computeIndicators h).momentum < 0 ∧
      (computeIndicators h).currentPrice < (computeIndicators h).ma5 →
        (analyzeMarket h).signal = Signal.SHORT ∧
        (analyzeMarket h).confidence =
          min 90 (60 + |(computeIndicators h).momentumPercent| * 10)) := by
  obtain ⟨hs, hc⟩ := analyzeMarket_of_volatile h hlen hvol
  constructor
  · rintro ⟨h1, h2, h3, h4⟩
    rw [hs, hc]
    exact trendRules_strong_long h1 h2 h3 h4
  · rintro ⟨h1, h2, h3, h4⟩
    rw [hs, hc]
    exact trendRules_strong_short h1 h2 h3 h4

theorem analyzeMarket_strong_trend_witness :
    ((analyzeMarket rising20).signal = Signal.LONG ∧
      (analyzeMarket rising20).confidence =
        min 90 (60 + |(computeIndicators rising20).momentumPercent| * 10)) ∧
    ((analyzeMarket falling20).signal = Signal.SHORT ∧
      (analyzeMarket falling20).confidence =
        min 90 (60 + |(computeIndicators falling20).momentumPercent| * 10)) :=
  ⟨(analyzeMarket_strong_trend rising20 (by decide) (by decide!) (by decide!)).1 (by decide!),
   (analyzeMarket_strong_trend falling20 (by decide) (by decide!) (by decide!)).2 (by decide!)⟩

/-- C6, as stated, fails.  On `risingDip20` every hypothesis of the claim holds
(20 positive samples, volatility percent at least `0.05`, rule 1 and rule 2 do
not match) and the moderate-uptrend condition holds, yet the result is `WAIT`
with confidence `0`: the chain enters the `ma5 > ma10 && ma10 > ma20` branch and
tries no later branch.  On `fallingRebound20` the same happens for the
moderate-downtrend condition. -/
theorem analyzeMarket_moderate_after_strong_counterexample :
    (20 ≤ risingDip20.length ∧ (∀ x ∈ risingDip20, 0 < x) ∧
      5 / 100 ≤ (computeIndicators risingDip20).volatilityPercent ∧
      ¬ ((computeIndicators risingDip20).ma5 > (computeIndicators risingDip20).ma10 ∧
        (computeIndicators risingDip20).ma10 > (computeIndicators risingDip20).ma20 ∧
        (computeIndicators risingDip20).momentum > 0 ∧
        (computeIndicators risingDip20).currentPrice > (computeIndicators risingDip20).ma5) ∧
      ¬ ((computeIndicators risingDip20).ma5 < (computeIndicators risingDip20).ma10 ∧
        (computeIndicators risingDip20).ma10 < (computeIndicators risingDip20).ma20 ∧
        (computeIndicators risingDip20).momentum < 0 ∧
        (computeIndicators risingDip20).currentPrice < (computeIndicators risingDip20).ma5) ∧
      ((computeIndicators risingDip20).ma5 > (computeIndicators risingDip20).ma10 ∧
        (computeIndicators risingDip20).currentPrice > (computeIndicators risingDip20).ma10 ∧
        (computeIndicators risingDip20).momentum > 0) ∧
      (computeIndicators risingDip20).ma10 > (computeIndicators risingDip20).ma20 ∧
      (computeIndicators risingDip20).currentPrice ≤ (computeIndicators risingDip20).ma5 ∧
      (analyzeMarket risingDip20).signal ≠ Signal.LONG ∧
      (analyzeMarket risingDip20).signal = Signal.WAIT ∧
      (analyzeMarket risingDip20).confidence = 0) ∧
    (20 ≤ fallingRebound20.length ∧ (∀ x ∈ fallingRebound20, 0 < x) ∧
      5 / 100 ≤ (computeIndicators fallingRebound20).volatilityPercent ∧
      ¬ ((computeIndicators fallingRebound20).ma5 > (computeIndicators fallingRebound20).ma10 ∧
        (computeIndicators fallingRebound20).ma10 > (computeIndicators fallingRebound20).ma20 ∧
        (computeIndicators fallingRebound20).momentum > 0 ∧
        (computeIndicators fallingRebound20).currentPrice >
          (computeIndicators fallingRebound20).ma5) ∧
      ¬ ((computeIndicators fallingRebound20).ma5 < (computeIndicators fallingRebound20).ma10 ∧
        (computeIndicators fallingRebound20).ma10 < (computeIndicators fallingRebound20).ma20 ∧
        (computeIndicators fallingRebound20).momentum < 0 ∧
        (computeIndicators fallingRebound20).currentPrice <
          (computeIndicators fallingRebound20).ma5) ∧
      ((computeIndicators fallingRebound20).ma5 < (computeIndicators fallingRebound20).ma10 ∧
        (computeIndicators fallingRebound20).currentPrice <
          (computeIndicators fallingRebound20).ma10 ∧
        (computeIndicators fallingRebound20).momentum < 0) ∧
      (analyzeMarket fallingRebound20).signal ≠ Signal.SHORT ∧
      (analyzeMarket fallingRebound20).signal = Signal.WAIT ∧
      (analyzeMarket fallingRebound20).confidence = 0) := by
  decide!

/-- C6, amended: on a history of at least 20 positive samples with volatility
percent at least `0.05` on which neither moving-average alignment
`ma5 > ma10 > ma20` nor `ma5 < ma10 < ma20` holds, the moderate-uptrend
condition `ma5 > ma10`, `current > ma10`, `momentum > 0` gives `LONG` and the
moderate-downtrend condition `ma5 < ma10`, `current < ma10`, `momentum < 0`
gives `SHORT`, each with confidence `min 75 (50 + |momentumPercent| * 5)`. -/
theorem analyzeMarket_moderate_trend (h : List ℚ) (hlen : 20 ≤ h.length)
    (_hpos : ∀ x ∈ h, 0 < x)
    (hvol : 5 / 100 ≤ (computeIndicators h).volatilityPercent)
    (hno1 : ¬ ((computeIndicators h).ma5 > (computeIndicators h).ma10 ∧
      (computeIndicators h).ma10 > (computeIndicators h).ma20))
    (hno2 : ¬ ((computeIndicators h).ma5 < (computeIndicators h).ma10 ∧
      (computeIndicators h).ma10 < (computeIndicators h).ma20)) :
    ((computeIndicators h).ma5 > (computeIndicators h).ma10 ∧
      (computeIndicators h).currentPrice > (computeIndicators h).ma10 ∧
      (computeIndicators h).momentum > 0 →
        (analyzeMarket h).signal = Signal.LONG ∧
        (analyzeMarket h).confidence =
          min 75 (50 + |(computeIndicators h).momentumPercent| * 5)) ∧
    ((computeIndicators h).ma5 < (computeIndicators h).ma10 ∧
      (computeIndicators h).currentPrice < (computeIndicators h).ma10 ∧
      (computeIndicators h).momentum < 0 →
        (analyzeMarket h).signal = Signal.SHORT ∧
        (analyzeMarket h).confidence =
          min 75 (50 + |(computeIndicators h).momentumPercent| * 5)) := by
  obtain ⟨hs, hc⟩ := analyzeMarket_of_volatile h hlen hvol
  constructor
  · rintro ⟨h1, h2, h3⟩
    rw [hs, hc]
    exact trendRules_moderate_long hno1 hno2 h1 h2 h3
  · rintro ⟨h1, h2, h3⟩
    rw [hs, hc]
    exact trendRules_moderate_short hno1 hno2 h1 h2 h3

theorem analyzeMarket_moderate_trend_witness :
    ((analyzeMarket moderateUp20).signal = Signal.LONG ∧
      (analyzeMarket moderateUp20).confidence =
        min 75 (50 + |(computeIndicators moderateUp20).momentumPercent| * 5)) ∧
    ((analyzeMarket moderateDown20).signal = Signal.SHORT ∧
      (analyzeMarket moderateDown20).confidence =
        min 75 (50 + |(computeIndicators moderateDown20).momentumPercent| * 5)) :=
  ⟨(analyzeMarket_moderate_trend moderateUp20 (by decide) (by decide!) (by decide!)
      (by decide!) (by decide!)).1 (by decide!),
   (analyzeMarket_moderate_trend moderateDown20 (by decide) (by decide!) (by decide!)
      (by decide!) (by decide!)).2 (by decide!)⟩

/-- C7: on a history of at least 20 positive samples the volatility percent is
(greatest minus least of the last ten samples) divided by the last sample,
times 100.  If it is below `0.05` the result is `WAIT` with confidence `0`
whatever the trend rules chose; if it is at least `0.05` the signal and the
confidence are those chosen by the trend rules. -/
theorem analyzeMarket_volatility_override (h : List ℚ) (hlen : 20 ≤ h.length)
    (_hpos : ∀ x ∈ h, 0 < x) :
    (computeIndicators h).volatilityPercent =
      (mathMax (h.drop (h.length - 10)) - mathMin (h.drop (h.length - 10))) /
        h.getLast (List.ne_nil_of_length_pos (Nat.lt_of_lt_of_le (by decide) hlen)) * 100 ∧
    ((h.drop (h.length - 10)).length = 10 ∧
      mathMax (h.drop (h.length - 10)) ∈ h.drop (h.length - 10) ∧
      mathMin (h.drop (h.length - 10)) ∈ h.drop (h.length - 10) ∧
      ∀ y ∈ h.drop (h.length - 10),
        mathMin (h.drop (h.length - 10)) ≤ y ∧ y ≤ mathMax (h.drop (h.length - 10))) ∧
    ((computeIndicators h).volatilityPercent < 5 / 100 →
      (analyzeMarket h).signal = Signal.WAIT ∧ (analyzeMarket h).confidence = 0) ∧
    (5 / 100 ≤ (computeIndicators h).volatilityPercent →
      (analyzeMarket h).signal =
        (trendRules (computeIndicators h).ma5 (computeIndicators h).ma10
          (computeIndicators h).ma20 (computeIndicators h).currentPrice
          (computeIndicators h).momentum (computeIndicators h).momentumPercent).1 ∧
      (analyzeMarket h).confidence =
        (trendRules (computeIndicators h).ma5 (computeIndicators h).ma10
          (computeIndicators h).ma20 (computeIndicators h).currentPrice
          (computeIndicators h).momentum (computeIndicators h).momentumPercent).2.2) := by
  have hlen10 : (h.drop (h.length - 10)).length = 10 := by
    rw [List.length_drop]; omega
  have hne10 : h.drop (h.length - 10) ≠ [] := by
    intro he
    rw [he] at hlen10
    exact absurd hlen10 (by decide)
  refine ⟨?_, ⟨hlen10, (mathMax_spec _ hne10).1, (mathMin_spec _ hne10).1,
    fun y hy => ⟨(mathMin_spec _ hne10).2 y hy, (mathMax_spec _ hne10).2 y hy⟩⟩, ?_,
    analyzeMarket_of_volatile h hlen⟩
  · rw [← idx_last]
    simp only [computeIndicators, sliceLast]
    rw [if_neg (by decide)]
  · intro hlow
    rw [analyzeMarket_signal h hlen, analyzeMarket_confidence h hlen]
    by_cases hw : (trendRules (computeIndicators h).ma5 (computeIndicators h).ma10
        (computeIndicators h).ma20 (computeIndicators h).currentPrice
        (computeIndicators h).momentum (computeIndicators h).momentumPercent).1 = Signal.WAIT
    · rw [if_neg (fun hc => hc.2 hw), if_neg (fun hc => hc.2 hw)]
      exact ⟨hw, trendRules_wait_confidence _ _ _ _ _ _ hw⟩
    · rw [if_pos ⟨hlow, hw⟩, if_pos ⟨hlow, hw⟩]
      exact ⟨rfl, rfl⟩

theorem analyzeMarket_volatility_override_witness :
    ((computeIndicators lowVolatility20).ma5 > (computeIndicators lowVolatility20).ma10 ∧
      (computeIndicators lowVolatility20).ma10 > (computeIndicators lowVolatility20).ma20 ∧
      (computeIndicators lowVolatility20).momentum > 0 ∧
      (computeIndicators lowVolatility20).currentPrice >
        (computeIndicators lowVolatility20).ma5) ∧
    ((analyzeMarket lowVolatility20).signal = Signal.WAIT ∧
      (analyzeMarket lowVolatility20).confidence = 0) ∧
    ((analyzeMarket rising20).signal = Signal.LONG ∧
      (analyzeMarket rising20).confidence = 90) :=
  ⟨by decide!,
   (analyzeMarket_volatility_override lowVolatility20 (by decide) (by decide!)).2.2.1
     (by decide!),
   by
    have hw := (analyzeMarket_volatility_override rising20 (by decide) (by decide!)).2.2.2
      (by decide!)
    rw [hw.1, hw.2]
    decide!⟩

/-! ## Momentum -/

theorem computeIndicators_momentum (h : List ℚ) :
    (computeIndicators h).momentum = idx h (h.length - 1) - idx h (h.length - 6) ∧
    (computeIndicators h).momentumPercent =
      (idx h (h.length - 1) - idx h (h.length - 6)) / idx h (h.length - 6) * 100 :=
  ⟨rfl, rfl⟩

/-- C8: on `rising20` (samples `100, ..., 119`, so `n = 20`) `analyzeMarket`
reports momentum `5 = h[19] - h[14]` and momentum percent `5 / 114 * 100`: its
reference sample is `h[n - 6]`, five positions before the current one.  The
sample six positions before the current one is `h[n - 1 - 6] = h[13] = 113`,
which would give momentum `6` and momentum percent `6 / 113 * 100`. -/
theorem analyzeMarket_momentum_reference_at_rising20 :
    rising20.length = 20 ∧
    (analyzeMarket rising20).indicators.map (fun i => i.momentum) = some 5 ∧
    (analyzeMarket rising20).indicators.map (fun i => i.momentumPercent) =
      some (5 / 114 * 100) ∧
    idx rising20 (20 - 1) - idx rising20 (20 - 6) = 5 ∧
    idx rising20 (20 - 1) - idx rising20 (20 - 1 - 6) = 6 ∧
    (idx rising20 (20 - 1) - idx rising20 (20 - 1 - 6)) / idx rising20 (20 - 1 - 6) * 100 =
      6 / 113 * 100 ∧
    (analyzeMarket rising20).indicators.map (fun i => i.momentum) ≠
      some (idx rising20 (20 - 1) - idx rising20 (20 - 1 - 6)) ∧
    (analyzeMarket rising20).indicators.map (fun i => i.momentumPercent) ≠
      some ((idx rising20 (20 - 1) - idx rising20 (20 - 1 - 6)) /
        idx rising20 (20 - 1 - 6) * 100) := by
  decide!

/-! ## Closing a position -/

/-- C9: when a position `pos` is open, `closePosition exitPrice` computes the
profit or loss `(exitPrice - entryPrice) / entryPrice * margin * leverage` for a
`LONG` position and `(entryPrice - exitPrice) / entryPrice * margin * leverage`
for a `SHORT` one, adds it to the capital, appends exactly one trade record with
the position's side and entry price, the given exit price, that profit or loss
and the new capital as `capitalAfter`, and leaves no position open. -/
theorem closePosition_open (s : State) (pos : Position) (exitPrice : ℚ) (now : ℕ)
    (hopen : s.currentPosition = some pos) :
    (pos.type = Signal.LONG →
      (closePosition s exitPrice now).tradingCapital =
        s.tradingCapital +
          (exitPrice - pos.entryPrice) / pos.entryPrice * pos.margin * pos.leverage ∧
      (closePosition s exitPrice now).tradeHistory =
        s.tradeHistory ++
          [{ type := Signal.LONG
             entryPrice := pos.entryPrice
             exitPrice := exitPrice
             profitLoss :=
               (exitPrice - pos.entryPrice) / pos.entryPrice * pos.margin * pos.leverage
             openTime := pos.openTime
             closeTime := now
             capitalAfter := (closePosition s exitPrice now).tradingCapital }] ∧
      (closePosition s exitPrice now).currentPosition = none) ∧
    (pos.type = Signal.SHORT →
      (closePosition s exitPrice now).tradingCapital =
        s.tradingCapital +
          (pos.entryPrice - exitPrice) / pos.entryPrice * pos.margin * pos.leverage ∧
      (closePosition s exitPrice now).tradeHistory =
        s.tradeHistory ++
          [{ type := Signal.SHORT
             entryPrice := pos.entryPrice
             exitPrice := exitPrice
             profitLoss :=
               (pos.entryPrice - exitPrice) / pos.entryPrice * pos.margin * pos.leverage
             openTime := pos.openTime
             closeTime := now
             capitalAfter := (closePosition s exitPrice now).tradingCapital }] ∧
      (closePosition s exitPrice now).currentPosition = none) := by
  constructor
  · intro ht
    simp only [closePosition, hopen, ht, if_true]
    refine ⟨?_, ?_, ?_⟩ <;> first | rfl | trivial
  · intro ht
    have hne : ¬ (Signal.SHORT = Signal.LONG) := by decide
    have hneg : -(exitPrice - pos.entryPrice) = pos.entryPrice - exitPrice := by ring
    simp only [closePosition, hopen, ht, if_neg hne, hneg]
    refine ⟨?_, ?_, ?_⟩ <;> first | rfl | trivial

theorem closePosition_open_witness :
    ((closePosition longAt1000 1100 2).tradingCapital = 11000000 ∧
      (closePosition longAt1000 1100 2).tradeHistory.length = 1 ∧
      (closePosition longAt1000 1100 2).currentPosition = none) ∧
    ((closePosition shortAt1000 1100 2).tradingCapital = 9000000 ∧
      (closePosition shortAt1000 1100 2).tradeHistory.length = 1 ∧
      (closePosition shortAt1000 1100 2).currentPosition = none) := by
  have hl := (closePosition_open longAt1000
    { type := Signal.LONG, entryPrice := 1000, margin := 3000000, leverage := 10 / 3,
      openTime := 1 } 1100 2 (by decide!)).1 rfl
  have hs := (closePosition_open shortAt1000
    { type := Signal.SHORT, entryPrice := 1000, margin := 3000000, leverage := 10 / 3,
      openTime := 1 } 1100 2 (by decide!)).2 rfl
  refine ⟨⟨?_, ?_, hl.2.2⟩, ⟨?_, ?_, hs.2.2⟩⟩
  · rw [hl.1]; decide!
  · rw [hl.2.1]; rfl
  · rw [hs.1]; decide!
  · rw [hs.2.1]; rfl

/-- C10: when no position is open, `closePosition exitPrice` returns the state
unchanged, for every exit price: capital, trade history and the absent position
stay as they were. -/
theorem closePosition_none (s : State) (exitPrice : ℚ) (now : ℕ)
    (hnone : s.currentPosition = none) :
    closePosition s exitPrice now = s ∧
    (closePosition s exitPrice now).tradingCapital = s.tradingCapital ∧
    (closePosition s exitPrice now).tradeHistory = s.tradeHistory ∧
    (closePosition s exitPrice now).currentPosition = none := by
  have hs : closePosition s exitPrice now = s := by
    unfold closePosition
    rw [hnone]
  rw [hs]
  exact ⟨rfl, rfl, rfl, hnone⟩

theorem closePosition_none_witness :
    closePosition initialState 1100 2 = initialState ∧
    (closePosition initialState 1100 2).tradingCapital = 10000000 ∧
    (closePosition initialState 1100 2).tradeHistory = [] ∧
    (closePosition initialState 1100 2).currentPosition = none :=
  closePosition_none initialState 1100 2 rfl

/-! ## Opening a position -/

/-- C11, as stated, fails.  `longAt1000` has an open `LONG` position entered at
`1000`; `openPosition("SHORT", 2000)` on it does not leave that position in
place but stores a `SHORT` position entered at `2000`. -/
theorem openPosition_overwrites_counterexample :
    longAt1000.currentPosition =
      some { type := Signal.LONG, entryPrice := 1000, margin := 3000000,
             leverage := 10 / 3, openTime := 1 } ∧
    (openPosition longAt1000 Signal.SHORT 2000 5).currentPosition =
      some { type := Signal.SHORT, entryPrice := 2000, margin := 3000000,
             leverage := 10 / 3, openTime := 5 } ∧
    (openPosition longAt1000 Signal.SHORT 2000 5).currentPosition ≠
      longAt1000.currentPosition := by
  decide!

/-- C11, amended: `openPosition` has no check for an open position.  When a
position is already open, `openPosition side price` replaces it by the new
position (that side, `entryPrice = price`, `margin = capital * 0.3`,
`leverage = 1 / 0.3`); the capital and the trade history are unchanged. -/
theorem openPosition_when_open (s : State) (pos : Position) (side : Signal) (price : ℚ)
    (now : ℕ) (_hopen : s.currentPosition = some pos) :
    (openPosition s side price now).currentPosition =
      some { type := side
             entryPrice := price
             margin := s.tradingCapital * (3 / 10)
             leverage := 1 / (3 / 10)
             openTime := now } ∧
    (openPosition s side price now).tradingCapital = s.tradingCapital ∧
    (openPosition s side price now).tradeHistory = s.tradeHistory :=
  ⟨rfl, rfl, rfl⟩

theorem openPosition_when_open_witness :
    (openPosition longAt1000 Signal.SHORT 2000 5).currentPosition =
      some { type := Signal.SHORT
             entryPrice := 2000
             margin := longAt1000.tradingCapital * (3 / 10)
             leverage := 1 / (3 / 10)
             openTime := 5 } ∧
    (openPosition longAt1000 Signal.SHORT 2000 5).tradingCapital =
      longAt1000.tradingCapital ∧
    (openPosition longAt1000 Signal.SHORT 2000 5).tradeHistory = longAt1000.tradeHistory :=
  openPosition_when_open longAt1000
    { type := Signal.LONG, entryPrice := 1000, margin := 3000000, leverage := 10 / 3,
      openTime := 1 } Signal.SHORT 2000 5 (by decide!)

/-- C12: when no position is open, `openPosition side price` stores a position
with that side, `entryPrice = price`, `margin = capital * 0.3` and
`leverage = 1 / 0.3`, and leaves the capital and the trade history (and the
price history) unchanged. -/
theorem openPosition_when_none (s : State) (side : Signal) (price : ℚ) (now : ℕ)
    (_hnone : s.currentPosition = none) :
    (openPosition s side price now).currentPosition =
      some { type := side
             entryPrice := price
             margin := s.tradingCapital * (3 / 10)
             leverage := 1 / (3 / 10)
             openTime := now } ∧
    (openPosition s side price now).tradingCapital = s.tradingCapital ∧
    (openPosition s side price now).tradeHistory = s.tradeHistory ∧
    (openPosition s side price now).priceHistory = s.priceHistory ∧
    (openPosition s side price now).currentGoldPriceVND = s.currentGoldPriceVND :=
  ⟨rfl, rfl, rfl, rfl, rfl⟩

theorem openPosition_when_none_witness :
    (openPosition initialState Signal.LONG 1000 1).currentPosition =
      some { type := Signal.LONG
             entryPrice := 1000
             margin := initialState.tradingCapital * (3 / 10)
             leverage := 1 / (3 / 10)
             openTime := 1 } ∧
    (openPosition initialState Signal.LONG 1000 1).tradingCapital =
      initialState.tradingCapital ∧
    (openPosition initialState Signal.LONG 1000 1).tradeHistory = initialState.tradeHistory ∧
    (openPosition initialState Signal.LONG 1000 1).priceHistory = initialState.priceHistory ∧
    (openPosition initialState Signal.LONG 1000 1).currentGoldPriceVND =
      initialState.currentGoldPriceVND :=
  openPosition_when_none initialState Signal.LONG 1000 1 rfl

/-! ## Opening then closing -/

theorem closePosition_openPosition (s : State) (side : Signal) (e x : ℚ) (n1 n2 : ℕ) :
    closePosition (openPosition s side e n1) x n2 =
      { s with
        tradingCapital := s.tradingCapital +
          (if side = Signal.LONG then
            (x - e) / e * (s.tradingCapital * MAX_MARGIN) * (1 / MAX_MARGIN)
          else -(x - e) / e * (s.tradingCapital * MAX_MARGIN) * (1 / MAX_MARGIN))
        tradeHistory := s.tradeHistory ++
          [{ type := side
             entryPrice := e
             exitPrice := x
             profitLoss :=
               (if side = Signal.LONG then
                 (x - e) / e * (s.tradingCapital * MAX_MARGIN) * (1 / MAX_MARGIN)
               else -(x - e) / e * (s.tradingCapital * MAX_MARGIN) * (1 / MAX_MARGIN))
             openTime := n1
             closeTime := n2
             capitalAfter := s.tradingCapital +
               (if side = Signal.LONG then
                 (x - e) / e * (s.tradingCapital * MAX_MARGIN) * (1 / MAX_MARGIN)
               else -(x - e) / e * (s.tradingCapital * MAX_MARGIN) * (1 / MAX_MARGIN)) }]
        currentPosition := none } :=
  rfl

theorem margin_mul_leverage (c y : ℚ) :
    y * (c * MAX_MARGIN) * (1 / MAX_MARGIN) = y * c := by
  unfold MAX_MARGIN
  ring

/-- C13: over exact arithmetic the position stored by `openPosition` has
`margin * leverage` equal to the capital at opening time, so for an entry price
`e ≠ 0`, `openPosition("LONG", e)` followed by `closePosition(x)` appends the
record with `profitLoss = (x - e) / e * c` and makes the capital
`c + (x - e) / e * c`, where `c` is the capital before; with `e = 1000` and
`x = 1100` the profit is `c * 0.1` and the capital `1.1 * c`. -/
theorem open_long_close_profitLoss (s : State) (e x : ℚ) (n1 n2 : ℕ) (_he : e ≠ 0) :
    (∃ pos, (openPosition s Signal.LONG e n1).currentPosition = some pos ∧
      pos.margin * pos.leverage = s.tradingCapital) ∧
    (closePosition (openPosition s Signal.LONG e n1) x n2).tradeHistory =
      s.tradeHistory ++
        [{ type := Signal.LONG
           entryPrice := e
           exitPrice := x
           profitLoss := (x - e) / e * s.tradingCapital
           openTime := n1
           closeTime := n2
           capitalAfter := s.tradingCapital + (x - e) / e * s.tradingCapital }] ∧
    (closePosition (openPosition s Signal.LONG e n1) x n2).tradingCapital =
      s.tradingCapital + (x - e) / e * s.tradingCapital ∧
    (closePosition (openPosition s Signal.LONG 1000 n1) 1100 n2).tradeHistory =
      s.tradeHistory ++
        [{ type := Signal.LONG
           entryPrice := 1000
           exitPrice := 1100
           profitLoss := s.tradingCapital * (1 / 10)
           openTime := n1
           closeTime := n2
           capitalAfter := 11 / 10 * s.tradingCapital }] ∧
    (closePosition (openPosition s Signal.LONG 1000 n1) 1100 n2).tradingCapital =
      11 / 10 * s.tradingCapital := by
  have h1 : (1100 - 1000 : ℚ) / 1000 * s.tradingCapital = s.tradingCapital * (1 / 10) := by
    ring
  have h2 : s.tradingCapital + s.tradingCapital * (1 / 10) = 11 / 10 * s.tradingCapital := by
    ring
  refine ⟨⟨_, rfl, ?_⟩, ?_, ?_, ?_, ?_⟩
  · show s.tradingCapital * MAX_MARGIN * (1 / MAX_MARGIN) = s.tradingCapital
    unfold MAX_MARGIN
    ring
  · rw [closePosition_openPosition]
    simp only [if_true, margin_mul_leverage]
  · rw [closePosition_openPosition]
    simp only [if_true, margin_mul_leverage]
  · rw [closePosition_openPosition]
    simp only [if_true, margin_mul_leverage, h1, h2]
  · rw [closePosition_openPosition]
    simp only [if_true, margin_mul_leverage, h1, h2]

theorem open_long_close_profitLoss_witness :
    (closePosition (openPosition initialState Signal.LONG 1000 1) 1100 2).tradingCapital =
      11000000 ∧
    (closePosition (openPosition initialState Signal.LONG 1000 1) 1100 2).tradeHistory =
      [{ type := Signal.LONG
         entryPrice := 1000
         exitPrice := 1100
         profitLoss := 1000000
         openTime := 1
         closeTime := 2
         capitalAfter := 11000000 }] := by
  have hw := open_long_close_profitLoss initialState 1000 1100 1 2 (by decide!)
  refine ⟨?_, ?_⟩
  · rw [hw.2.2.1]; decide!
  · rw [hw.2.1]; decide!

/-- C14: starting with no open position, for a side `LONG` or `SHORT` and a price
`p ≠ 0`, `openPosition(side, p)` immediately followed by `closePosition(p)`
appends a record with `profitLoss = 0`, leaves the capital equal to its value
before the open, and leaves no position open. -/
theorem open_close_same_price (s : State) (side : Signal) (p : ℚ) (n1 n2 : ℕ)
    (_hnone : s.currentPosition = none)
    (_hside : side = Signal.LONG ∨ side = Signal.SHORT) (_hp : p ≠ 0) :
    (closePosition (openPosition s side p n1) p n2).tradeHistory =
      s.tradeHistory ++
        [{ type := side
           entryPrice := p
           exitPrice := p
           profitLoss := 0
           openTime := n1
           closeTime := n2
           capitalAfter := s.tradingCapital }] ∧
    (closePosition (openPosition s side p n1) p n2).tradingCapital = s.tradingCapital ∧
    (closePosition (openPosition s side p n1) p n2).currentPosition = none := by
  have hz : (if side = Signal.LONG then
        (p - p) / p * (s.tradingCapital * MAX_MARGIN) * (1 / MAX_MARGIN)
      else -(p - p) / p * (s.tradingCapital * MAX_MARGIN) * (1 / MAX_MARGIN)) = 0 := by
    split_ifs <;> simp
  rw [closePosition_openPosition]
  simp only [hz, add_zero]
  refine ⟨?_, ?_, ?_⟩ <;> first | rfl | trivial

theorem open_close_same_price_witness :
    ((closePosition (openPosition initialState Signal.LONG 1000 1) 1000 2).tradingCapital =
        10000000 ∧
      (closePosition (openPosition initialState Signal.LONG 1000 1) 1000 2).currentPosition =
        none) ∧
    ((closePosition (openPosition initialState Signal.SHORT 1000 1) 1000 2).tradingCapital =
        10000000 ∧
      (closePosition (openPosition initialState Signal.SHORT 1000 1) 1000 2).currentPosition =
        none) :=
  ⟨(open_close_same_price initialState Signal.LONG 1000 1 2 rfl (Or.inl rfl) (by decide!)).2,
   (open_close_same_price initialState Signal.SHORT 1000 1 2 rfl (Or.inr rfl) (by decide!)).2⟩

/-! ## Unrealized profit and loss -/

/-- C15: with a position open, the unrealized profit or loss computed for display
at the price `currentGoldPriceVND` is the `profitLoss` of the record that
`closePosition` appends when called with that price; this holds in particular
right after a price refresh with the price `p`, and the refresh changes neither
the capital, nor the position, nor the trade history. -/
theorem unrealizedPL_eq_close_profitLoss (s : State) (pos : Position) (p : ℚ) (now : ℕ)
    (hopen : s.currentPosition = some pos) :
    (closePosition s s.currentGoldPriceVND now).tradeHistory =
      s.tradeHistory ++
        [{ type := pos.type
           entryPrice := pos.entryPrice
           exitPrice := s.currentGoldPriceVND
           profitLoss := unrealizedPL s
           openTime := pos.openTime
           closeTime := now
           capitalAfter := s.tradingCapital + unrealizedPL s }] ∧
    (closePosition (displayGoldPrice s p) p now).tradeHistory =
      s.tradeHistory ++
        [{ type := pos.type
           entryPrice := pos.entryPrice
           exitPrice := p
           profitLoss := unrealizedPL (displayGoldPrice s p)
           openTime := pos.openTime
           closeTime := now
           capitalAfter := s.tradingCapital + unrealizedPL (displayGoldPrice s p) }] ∧
    (displayGoldPrice s p).tradingCapital = s.tradingCapital ∧
    (displayGoldPrice s p).currentPosition = s.currentPosition ∧
    (displayGoldPrice s p).tradeHistory = s.tradeHistory := by
  have hneg : ∀ a : ℚ, -(a - pos.entryPrice) = pos.entryPrice - a := fun a => by ring
  refine ⟨?_, ?_, rfl, rfl, rfl⟩
  · simp only [closePosition, unrealizedPL, hopen, hneg]
  · simp only [closePosition, unrealizedPL, displayGoldPrice, hopen, hneg]

theorem unrealizedPL_eq_close_profitLoss_witness :
    unrealizedPL (displayGoldPrice longAt1000 1100) = 1000000 ∧
    (closePosition (displayGoldPrice longAt1000 1100) 1100 2).tradeHistory =
      [{ type := Signal.LONG
         entryPrice := 1000
         exitPrice := 1100
         profitLoss := 1000000
         openTime := 1
         closeTime := 2
         capitalAfter := 11000000 }] := by
  have hw := unrealizedPL_eq_close_profitLoss longAt1000
    { type := Signal.LONG, entryPrice := 1000, margin := 3000000, leverage := 10 / 3,
      openTime := 1 } 1100 2 (by decide!)
  refine ⟨by decide!, ?_⟩
  rw [hw.2.1]
  decide!

/-! ## Capital has no floor -/

/-- C18: no floor is enforced on the capital.  There are a positive capital, a
side and positive entry and exit prices for which `openPosition` followed by
`closePosition` leaves the capital strictly negative; this happens for every
positive capital and every `SHORT` position whose exit price is more than twice
its positive entry price. -/
theorem capital_can_go_negative :
    (∃ (c e x : ℚ) (side : Signal), 0 < c ∧ 0 < e ∧ 0 < x ∧
      (closePosition
        (openPosition { initialState with tradingCapital := c } side e 1) x 2).tradingCapital
        < 0) ∧
    (∀ (s : State) (e x : ℚ) (n1 n2 : ℕ), 0 < s.tradingCapital → 0 < e → 2 * e < x →
      (closePosition (openPosition s Signal.SHORT e n1) x n2).tradingCapital < 0) := by
  have hgen : ∀ (s : State) (e x : ℚ) (n1 n2 : ℕ), 0 < s.tradingCapital → 0 < e → 2 * e < x →
      (closePosition (openPosition s Signal.SHORT e n1) x n2).tradingCapital < 0 := by
    intro s e x n1 n2 hc he hx
    rw [closePosition_openPosition]
    have hne : ¬ (Signal.SHORT = Signal.LONG) := by decide
    simp only [if_neg hne, margin_mul_leverage]
    have hr : (x - e) / e > 1 := by
      rw [gt_iff_lt, lt_div_iff₀ he]
      linarith
    have hprod : s.tradingCapital * 1 < s.tradingCapital * ((x - e) / e) :=
      mul_lt_mul_of_pos_left hr hc
    have hsplit : s.tradingCapital + -(x - e) / e * s.tradingCapital =
        s.tradingCapital * 1 - s.tradingCapital * ((x - e) / e) := by ring
    rw [hsplit]
    linarith
  refine ⟨⟨10000000, 1000, 2100, Signal.SHORT, by norm_num, by norm_num, by norm_num, ?_⟩, hgen⟩
  exact hgen _ 1000 2100 1 2 (by norm_num) (by norm_num) (by norm_num)

theorem capital_can_go_negative_witness :
    (0 : ℚ) < initialState.tradingCapital ∧ (0 : ℚ) < 1000 ∧ (2 : ℚ) * 1000 < 2100 ∧
    (closePosition (openPosition initialState Signal.SHORT 1000 1) 2100 2).tradingCapital < 0 :=
  ⟨by decide!, by decide!, by decide!,
   capital_can_go_negative.2 initialState 1000 2100 1 2 (by decide!) (by decide!) (by decide!)⟩

/-! ## Trade tick -/

theorem closePosition_currentPosition (s : State) (x : ℚ) (now : ℕ) :
    (closePosition s x now).currentPosition = none := by
  unfold closePosition
  cases hpos : s.currentPosition with
  | none => simp only [hpos]
  | some pos => rfl

theorem executeTrade_of_nonpos (s : State) (now : ℕ) (hc : s.tradingCapital ≤ 0) :
    executeTrade s now = s := by
  unfold executeTrade
  rw [if_pos hc]

theorem executeTrade_of_open (s : State) (now : ℕ) (pos : Position)
    (hc : 0 < s.tradingCapital) (hopen : s.currentPosition = some pos) :
    executeTrade s now = closePosition s s.currentGoldPriceVND now := by
  unfold executeTrade
  rw [if_neg (not_le.mpr hc)]
  simp only [hopen]

theorem executeTrade_of_none (s : State) (now : ℕ)
    (hc : 0 < s.tradingCapital) (hnone : s.currentPosition = none) :
    executeTrade s now =
      if (analyzeMarket s.priceHistory).signal = Signal.LONG ∨
          (analyzeMarket s.priceHistory).signal = Signal.SHORT then
        openPosition s (analyzeMarket s.priceHistory).signal s.currentGoldPriceVND now
      else s := by
  unfold executeTrade
  rw [if_neg (not_le.mpr hc)]
  simp only [hnone]

/-- C16: one trade tick.  With capital at most `0` the state is unchanged.
Otherwise, with a position open, the tick is `closePosition` at the current
price: one record is appended and no position is open afterwards.  Otherwise
`analyzeMarket` decides: a position with side equal to the signal and entry
price equal to the current price is opened exactly when the signal is `LONG` or
`SHORT`, on `WAIT` the state is unchanged, and in both cases the trade history
and the capital are unchanged.  In every case either the trade history is
unchanged (nothing was closed) or no position is open afterwards (nothing was
opened). -/
theorem executeTrade_spec (s : State) (now : ℕ) :
    (s.tradingCapital ≤ 0 → executeTrade s now = s) ∧
    (0 < s.tradingCapital → ∀ pos, s.currentPosition = some pos →
      executeTrade s now = closePosition s s.currentGoldPriceVND now ∧
      (executeTrade s now).currentPosition = none ∧
      (executeTrade s now).tradeHistory.length = s.tradeHistory.length + 1) ∧
    (0 < s.tradingCapital → s.currentPosition = none →
      ((analyzeMarket s.priceHistory).signal = Signal.LONG ∨
          (analyzeMarket s.priceHistory).signal = Signal.SHORT →
        (executeTrade s now).currentPosition =
          some { type := (analyzeMarket s.priceHistory).signal
                 entryPrice := s.currentGoldPriceVND
                 margin := s.tradingCapital * (3 / 10)
                 leverage := 1 / (3 / 10)
                 openTime := now }) ∧
      ((analyzeMarket s.priceHistory).signal = Signal.WAIT → executeTrade s now = s) ∧
      ((executeTrade s now).currentPosition ≠ none ↔
        ((analyzeMarket s.priceHistory).signal = Signal.LONG ∨
          (analyzeMarket s.priceHistory).signal = Signal.SHORT)) ∧
      (executeTrade s now).tradeHistory = s.tradeHistory ∧
      (executeTrade s now).tradingCapital = s.tradingCapital) ∧
    ((executeTrade s now).tradeHistory = s.tradeHistory ∨
      (executeTrade s now).currentPosition = none) := by
  have hclosed : ∀ pos, 0 < s.tradingCapital → s.currentPosition = some pos →
      executeTrade s now = closePosition s s.currentGoldPriceVND now ∧
      (executeTrade s now).currentPosition = none ∧
      (executeTrade s now).tradeHistory.length = s.tradeHistory.length + 1 := by
    intro pos hc hopen
    rw [executeTrade_of_open s now pos hc hopen]
    refine ⟨rfl, closePosition_currentPosition _ _ _, ?_⟩
    simp only [closePosition, hopen, List.length_append, List.length_singleton]
  have hnone : 0 < s.tradingCapital → s.currentPosition = none →
      ((analyzeMarket s.priceHistory).signal = Signal.LONG ∨
          (analyzeMarket s.priceHistory).signal = Signal.SHORT →
        (executeTrade s now).currentPosition =
          some { type := (analyzeMarket s.priceHistory).signal
                 entryPrice := s.currentGoldPriceVND
                 margin := s.tradingCapital * (3 / 10)
                 leverage := 1 / (3 / 10)
                 openTime := now }) ∧
      ((analyzeMarket s.priceHistory).signal = Signal.WAIT → executeTrade s now = s) ∧
      ((executeTrade s now).currentPosition ≠ none ↔
        ((analyzeMarket s.priceHistory).signal = Signal.LONG ∨
          (analyzeMarket s.priceHistory).signal = Signal.SHORT)) ∧
      (executeTrade s now).tradeHistory = s.tradeHistory ∧
      (executeTrade s now).tradingCapital = s.tradingCapital := by
    intro hc hn
    rw [executeTrade_of_none s now hc hn]
    by_cases hsig : (analyzeMarket s.priceHistory).signal = Signal.LONG ∨
        (analyzeMarket s.priceHistory).signal = Signal.SHORT
    · rw [if_pos hsig]
      refine ⟨fun _ => rfl, ?_, ?_, rfl, rfl⟩
      · intro hw
        rw [hw] at hsig
        exact absurd hsig (by decide)
      · constructor
        · intro _; exact hsig
        · intro _ hcontra
          exact absurd hcontra (by simp [openPosition])
    · rw [if_neg hsig]
      refine ⟨fun h => absurd h hsig, fun _ => rfl, ?_, rfl, rfl⟩
      constructor
      · intro hne; exact absurd hn hne
      · intro h; exact absurd h hsig
  refine ⟨executeTrade_of_nonpos s now, fun hc pos hopen => hclosed pos hc hopen, hnone, ?_⟩
  by_cases hc : s.tradingCapital ≤ 0
  · left; rw [executeTrade_of_nonpos s now hc]
  · have hc2 : 0 < s.tradingCapital := not_le.mp hc
    cases hpos : s.currentPosition with
    | none => left; exact (hnone hc2 hpos).2.2.2.1
    | some pos => right; exact (hclosed pos hc2 hpos).2.1

theorem executeTrade_spec_witness :
    executeTrade afterShortLoss 9 = afterShortLoss ∧
    ((executeTrade longAt1000Priced 9).currentPosition = none ∧
      (executeTrade longAt1000Priced 9).tradeHistory.length = 1) ∧
    (executeTrade (run initialState risingPushes) 9).currentPosition =
      some { type := Signal.LONG
             entryPrice := 119
             margin := 3000000
             leverage := 10 / 3
             openTime := 9 } ∧
    executeTrade initialState 9 = initialState := by
  refine ⟨(executeTrade_spec afterShortLoss 9).1 (by decide!), ?_, ?_, ?_⟩
  · exact ((executeTrade_spec longAt1000Priced 9).2.1 (by decide!)
      { type := Signal.LONG, entryPrice := 1000, margin := 3000000, leverage := 10 / 3,
        openTime := 1 } (by decide!)).2
  · rw [((executeTrade_spec (run initialState risingPushes) 9).2.2.1 (by decide!)
      (by decide!)).1 (by decide!)]
    decide!
  · exact ((executeTrade_spec initialState 9).2.2.1 (by decide!) rfl).2.1 (by decide!)

/-! ## Reachable states -/

theorem step_keeps_capital_positive_when_open (s : State) (e : Event)
    (hinv : s.currentPosition ≠ none → 0 < s.tradingCapital) :
    (step s e).currentPosition ≠ none → 0 < (step s e).tradingCapital := by
  cases e with
  | push p => exact hinv
  | tick now =>
    show (executeTrade s now).currentPosition ≠ none → 0 < (executeTrade s now).tradingCapital
    by_cases hc : s.tradingCapital ≤ 0
    · rw [executeTrade_of_nonpos s now hc]
      exact hinv
    · have hc2 : 0 < s.tradingCapital := not_le.mp hc
      cases hpos : s.currentPosition with
      | some pos =>
        rw [executeTrade_of_open s now pos hc2 hpos]
        intro hne
        exact absurd (closePosition_currentPosition _ _ _) hne
      | none =>
        rw [executeTrade_of_none s now hc2 hpos]
        split_ifs
        · intro _; exact hc2
        · intro _; exact hc2

theorem run_keeps_capital_positive_when_open (events : List Event) :
    ∀ s : State, (s.currentPosition ≠ none → 0 < s.tradingCapital) →
      (run s events).currentPosition ≠ none → 0 < (run s events).tradingCapital := by
  induction events with
  | nil => intro s hinv; exact hinv
  | cons e es ih =>
    intro s hinv
    show (run (step s e) es).currentPosition ≠ none → 0 < (run (step s e) es).tradingCapital
    exact ih _ (step_keeps_capital_positive_when_open s e hinv)

/-- C17: in every state reached from the initial state by a sequence of price
refreshes and trade ticks, a trade tick that starts with a position open ends
with no position open: whenever a position is open the capital is positive, so
the `tradingCapital <= 0` early return is not taken. -/
theorem tick_closes_open_position (events : List Event) (now : ℕ)
    (hopen : (run initialState events).currentPosition ≠ none) :
    0 < (run initialState events).tradingCapital ∧
    (executeTrade (run initialState events) now).currentPosition = none := by
  have hc : 0 < (run initialState events).tradingCapital :=
    run_keeps_capital_positive_when_open events initialState
      (fun h => absurd rfl h) hopen
  refine ⟨hc, ?_⟩
  cases hpos : (run initialState events).currentPosition with
  | none => exact absurd hpos hopen
  | some pos =>
    rw [executeTrade_of_open _ now pos hc hpos]
    exact closePosition_currentPosition _ _ _

theorem tick_closes_open_position_witness :
    (run initialState (risingPushes ++ [Event.tick 7])).currentPosition ≠ none ∧
    (executeTrade (run initialState (risingPushes ++ [Event.tick 7])) 9).currentPosition =
      none :=
  ⟨by decide!,
   (tick_closes_open_position (risingPushes ++ [Event.tick 7]) 9 (by decide!)).2⟩

/-! ## Increasing and constant histories -/

theorem calculateMovingAverage_append (pre l : List ℚ) (hne : l ≠ []) :
    calculateMovingAverage (pre ++ l) l.length = l.sum / l.length := by
  unfold calculateMovingAverage sliceLast
  have hlen : ¬ (pre ++ l).length < l.length := by
    simp only [List.length_append]; omega
  have h0 : l.length ≠ 0 := fun hz => hne (List.length_eq_zero.mp hz)
  have hsub : (pre ++ l).length - l.length = pre.length := by
    simp only [List.length_append]; omega
  rw [if_neg hlen, if_neg h0, hsub, List.drop_left]
  simp only [foldl_add_eq_sum, zero_add]

theorem idx_append_last (pre l : List ℚ) (hne : l ≠ []) :
    idx (pre ++ l) ((pre ++ l).length - 1) = l.getLast hne := by
  rw [idx_last (pre ++ l) (by simp [hne]), List.getLast_append_right hne]

theorem split_last (h : List ℚ) (k : ℕ) (hk : k ≤ h.length) :
    h = h.take (h.length - k) ++ h.drop (h.length - k) ∧
    (h.drop (h.length - k)).length = k :=
  ⟨(List.take_append_drop _ _).symm, by rw [List.length_drop]; omega⟩

theorem current_gt_ma5_of_increasing (h : List ℚ) (hlen : 5 ≤ h.length)
    (hinc : List.Chain' (· < ·) h) :
    calculateMovingAverage h 5 < idx h (h.length - 1) := by
  obtain ⟨hsplit, hl5⟩ := split_last h 5 hlen
  have hchain : List.Chain' (· < ·) (h.drop (h.length - 5)) := hinc.drop _
  generalize h.take (h.length - 5) = pre at hsplit
  generalize h.drop (h.length - 5) = l at hsplit hl5 hchain
  match l, hl5, hchain with
  | [a, b, c, d, e], _, hchain =>
    subst hsplit
    have hma := calculateMovingAverage_append pre [a, b, c, d, e] (by simp)
    have hcur := idx_append_last pre [a, b, c, d, e] (by simp)
    simp only [List.length_cons, List.length_nil, List.sum_cons, List.sum_nil] at hma
    simp only [List.getLast_cons_cons, List.getLast_singleton] at hcur
    simp only [List.chain'_cons, List.chain'_singleton, and_true] at hchain
    obtain ⟨hab, hbc, hcd, hde⟩ := hchain
    have h5 : calculateMovingAverage (pre ++ [a, b, c, d, e]) 5 =
        (a + (b + (c + (d + (e + 0))))) / 5 := by
      simpa using hma
    rw [hcur, h5, div_lt_iff₀ (by norm_num)]
    linarith

theorem rising20_increasing : List.Chain' (· < ·) rising20 := by
  unfold rising20
  simp only [List.chain'_cons, List.chain'_singleton, and_true]
  norm_num

theorem lowVolatility20_increasing : List.Chain' (· < ·) lowVolatility20 := by
  unfold lowVolatility20
  simp only [List.chain'_cons, List.chain'_singleton, and_true]
  norm_num

/-- C19, as stated, fails.  `lowVolatility20` is a strictly increasing history of
20 positive samples with `ma5 > ma10 > ma20` and positive momentum, yet the
result is `WAIT` with confidence `0`, outside `[60, 90]`: its volatility percent
is below `0.05`, so the volatility check replaces the `LONG` signal. -/
theorem analyzeMarket_increasing_low_volatility_counterexample :
    20 ≤ lowVolatility20.length ∧ (∀ x ∈ lowVolatility20, 0 < x) ∧
    List.Chain' (· < ·) lowVolatility20 ∧
    (computeIndicators lowVolatility20).ma5 > (computeIndicators lowVolatility20).ma10 ∧
    (computeIndicators lowVolatility20).ma10 > (computeIndicators lowVolatility20).ma20 ∧
    (computeIndicators lowVolatility20).momentum > 0 ∧
    (computeIndicators lowVolatility20).volatilityPercent < 5 / 100 ∧
    (analyzeMarket lowVolatility20).signal ≠ Signal.LONG ∧
    (analyzeMarket lowVolatility20).signal = Signal.WAIT ∧
    (analyzeMarket lowVolatility20).confidence = 0 ∧
    ¬ (60 ≤ (analyzeMarket lowVolatility20).confidence) := by
  refine ⟨by decide, by decide!, lowVolatility20_increasing, ?_⟩
  decide!

/-- C19, amended: for every strictly increasing history of at least 20 positive
samples with `ma5 > ma10 > ma20`, positive momentum and volatility percent at
least `0.05`, `analyzeMarket` returns `LONG` with a confidence in `[60, 90]`. -/
theorem analyzeMarket_increasing_long (h : List ℚ) (hlen : 20 ≤ h.length)
    (_hpos : ∀ x ∈ h, 0 < x) (hinc : List.Chain' (· < ·) h)
    (hma1 : (computeIndicators h).ma5 > (computeIndicators h).ma10)
    (hma2 : (computeIndicators h).ma10 > (computeIndicators h).ma20)
    (hmom : (computeIndicators h).momentum > 0)
    (hvol : 5 / 100 ≤ (computeIndicators h).volatilityPercent) :
    (analyzeMarket h).signal = Signal.LONG ∧
    60 ≤ (analyzeMarket h).confidence ∧ (analyzeMarket h).confidence ≤ 90 := by
  have hcur : (computeIndicators h).currentPrice > (computeIndicators h).ma5 :=
    current_gt_ma5_of_increasing h (by omega) hinc
  obtain ⟨hs, hc⟩ := analyzeMarket_of_volatile h hlen hvol
  obtain ⟨hsig, hconf⟩ := @trendRules_strong_long _ _ _ _ _
    (computeIndicators h).momentumPercent hma1 hma2 hmom hcur
  rw [hs, hc, hsig, hconf]
  refine ⟨rfl, ?_, min_le_left _ _⟩
  have habs : 0 ≤ |(computeIndicators h).momentumPercent| := abs_nonneg _
  exact le_min (by norm_num) (by linarith)

theorem analyzeMarket_increasing_long_witness :
    (analyzeMarket rising20).signal = Signal.LONG ∧
    60 ≤ (analyzeMarket rising20).confidence ∧ (analyzeMarket rising20).confidence ≤ 90 :=
  analyzeMarket_increasing_long rising20 (by decide) (by decide!) rising20_increasing
    (by decide!) (by decide!) (by decide!) (by decide!)

theorem calculateMovingAverage_replicate (n k : ℕ) (v : ℚ) (hk : 1 ≤ k) (hkn : k ≤ n) :
    calculateMovingAverage (List.replicate n v) k = v := by
  have hsplit : List.replicate n v = List.replicate (n - k) v ++ List.replicate k v := by
    rw [List.append_replicate_replicate]
    congr 1
    omega
  have hne : List.replicate k v ≠ [] := by
    intro he
    have hl := congrArg List.length he
    simp only [List.length_replicate, List.length_nil] at hl
    omega
  have hma := calculateMovingAverage_append (List.replicate (n - k) v) (List.replicate k v) hne
  rw [← hsplit, List.length_replicate, List.sum_replicate, nsmul_eq_mul] at hma
  rw [hma]
  have hk0 : (k : ℚ) ≠ 0 := by
    have : (0 : ℚ) < k := by exact_mod_cast hk
    exact ne_of_gt this
  field_simp

theorem idx_replicate (n i : ℕ) (v : ℚ) (hi : i < n) :
    idx (List.replicate n v) i = v := by
  unfold idx
  rw [List.getD_eq_getElem?_getD, List.getElem?_replicate_of_lt hi]
  rfl

theorem sliceLast_replicate (n k : ℕ) (v : ℚ) (hk : 1 ≤ k) (hkn : k ≤ n) :
    sliceLast (List.replicate n v) k = List.replicate k v := by
  unfold sliceLast
  rw [if_neg (by omega), List.length_replicate, List.drop_replicate]
  congr 1
  omega

theorem mathMax_replicate (k : ℕ) (v : ℚ) (hk : 1 ≤ k) :
    mathMax (List.replicate k v) = v := by
  have hne : List.replicate k v ≠ [] := by
    intro he
    have hl := congrArg List.length he
    simp only [List.length_replicate, List.length_nil] at hl
    omega
  exact List.eq_of_mem_replicate (mathMax_spec _ hne).1

theorem mathMin_replicate (k : ℕ) (v : ℚ) (hk : 1 ≤ k) :
    mathMin (List.replicate k v) = v := by
  have hne : List.replicate k v ≠ [] := by
    intro he
    have hl := congrArg List.length he
    simp only [List.length_replicate, List.length_nil] at hl
    omega
  exact List.eq_of_mem_replicate (mathMin_spec _ hne).1

theorem computeIndicators_replicate (n : ℕ) (v : ℚ) (hn : 20 ≤ n) :
    computeIndicators (List.replicate n v) =
      { ma5 := v
        ma10 := v
        ma20 := v
        currentPrice := v
        momentum := 0
        momentumPercent := 0
        volatilityPercent := 0 } := by
  unfold computeIndicators
  simp only [calculateMovingAverage_replicate n 5 v (by decide) (by omega),
    calculateMovingAverage_replicate n 10 v (by decide) (by omega),
    calculateMovingAverage_replicate n 20 v (by decide) (by omega),
    List.length_replicate, idx_replicate n (n - 1) v (by omega),
    idx_replicate n (n - 6) v (by omega),
    sliceLast_replicate n 10 v (by decide) (by omega),
    mathMax_replicate 10 v (by decide), mathMin_replicate 10 v (by decide),
    sub_self, zero_div, zero_mul]

theorem trendRules_flat (v ma20 c m mp : ℚ) :
    (trendRules v v ma20 c m mp).1 = Signal.WAIT ∧ (trendRules v v ma20 c m mp).2.2 = 0 := by
  unfold trendRules
  have hirr : ¬ (v > v) := lt_irrefl v
  have hirr2 : ¬ (v < v) := lt_irrefl v
  rw [if_neg (fun hc => hirr hc.1), if_neg (fun hc => hirr2 hc.1),
    if_neg (fun hc => hirr hc.1), if_neg (fun hc => hirr2 hc.1)]
  exact ⟨rfl, rfl⟩

/-- C20: on a history of at least 20 samples all equal to some `v > 0`,
`analyzeMarket` computes momentum `0` and volatility percent `0` (and all three
moving averages equal to `v`) and returns `WAIT` with confidence `0`. -/
theorem analyzeMarket_constant (h : List ℚ) (v : ℚ) (hlen : 20 ≤ h.length) (_hv : 0 < v)
    (hconst : ∀ x ∈ h, x = v) :
    (analyzeMarket h).indicators =
      some { ma5 := v
             ma10 := v
             ma20 := v
             currentPrice := v
             momentum := 0
             momentumPercent := 0
             volatilityPercent := 0 } ∧
    (analyzeMarket h).signal = Signal.WAIT ∧
    (analyzeMarket h).confidence = 0 := by
  have hrep : h = List.replicate h.length v := List.eq_replicate_iff.mpr ⟨rfl, hconst⟩
  have hind := computeIndicators_replicate h.length v hlen
  rw [← hrep] at hind
  have hflat := trendRules_flat v v v 0 0
  refine ⟨?_, ?_, ?_⟩
  · rw [analyzeMarket_indicators h hlen, hind]
  · rw [analyzeMarket_signal h hlen, hind]
    simp only [hflat.1, ne_eq, not_true_eq_false, and_false, if_false]
  · rw [analyzeMarket_confidence h hlen, hind]
    simp only [hflat.1, hflat.2, ne_eq, not_true_eq_false, and_false, if_false]

theorem analyzeMarket_constant_witness :
    constant50.length = 50 ∧
    (analyzeMarket constant50).indicators =
      some { ma5 := 100
             ma10 := 100
             ma20 := 100
             currentPrice := 100
             momentum := 0
             momentumPercent := 0
             volatilityPercent := 0 } ∧
    (analyzeMarket constant50).signal = Signal.WAIT ∧
    (analyzeMarket constant50).confidence = 0 :=
  ⟨by decide,
   analyzeMarket_constant constant50 100 (by decide) (by decide!)
     (fun _ hx => List.eq_of_mem_replicate hx)⟩

/-! ## Constant window -/

/-- C21: for every period of at least one and every value `v`,
`calculateMovingAverage` on the history made of exactly `period` copies of `v`
returns `v` (exact arithmetic). -/
theorem calculateMovingAverage_constant_window (period : ℕ) (v : ℚ) (hp : 1 ≤ period) :
    calculateMovingAverage (List.replicate period v) period = v :=
  calculateMovingAverage_replicate period period v hp (le_refl period)

theorem calculateMovingAverage_constant_window_witness :
    calculateMovingAverage [7, 7, 7, 7, 7] 5 = 7 :=
  calculateMovingAverage_constant_window 5 7 (by decide)

/-! ## Confidence range and signal soundness -/

theorem trendRules_confidence_range (ma5 ma10 ma20 c m mp : ℚ) :
    ((trendRules ma5 ma10 ma20 c m mp).1 = Signal.WAIT ∧
      (trendRules ma5 ma10 ma20 c m mp).2.2 = 0) ∨
    ((trendRules ma5 ma10 ma20 c m mp).1 ≠ Signal.WAIT ∧
      50 ≤ (trendRules ma5 ma10 ma20 c m mp).2.2 ∧
      (trendRules ma5 ma10 ma20 c m mp).2.2 ≤ 90) := by
  have habs : 0 ≤ |mp| := abs_nonneg mp
  unfold trendRules
  split_ifs
  all_goals first
    | (left; exact ⟨rfl, rfl⟩)
    | (right
       exact ⟨fun hc => Signal.noConfusion hc, le_min (by norm_num) (by linarith),
         le_trans (min_le_left _ _) (by norm_num)⟩)

theorem trendRules_long_sound (ma5 ma10 ma20 c m mp : ℚ)
    (hl : (trendRules ma5 ma10 ma20 c m mp).1 = Signal.LONG) :
    m > 0 ∧ ma5 > ma10 ∧ c > ma10 := by
  unfold trendRules at hl
  split_ifs at hl with h1 h2 h3 h4 h5 h6
  · exact ⟨h2.1, h1.1, lt_trans h1.1 h2.2⟩
  · exact ⟨h5.2.2, h5.1, h5.2.1⟩

theorem trendRules_short_sound (ma5 ma10 ma20 c m mp : ℚ)
    (hl : (trendRules ma5 ma10 ma20 c m mp).1 = Signal.SHORT) :
    m < 0 ∧ ma5 < ma10 ∧ c < ma10 := by
  unfold trendRules at hl
  split_ifs at hl with h1 h2 h3 h4 h5 h6
  · exact ⟨h4.1, h3.1, lt_trans h4.2 h3.1⟩
  · exact ⟨h6.2.2, h6.1, h6.2.1⟩

/-- C22: for every history the confidence returned by `analyzeMarket` lies
between `0` and `100`; it is `0` whenever the signal is `WAIT` and lies in
`[50, 90]` whenever the signal is `LONG` or `SHORT`. -/
theorem analyzeMarket_confidence_range (h : List ℚ) :
    (0 ≤ (analyzeMarket h).confidence ∧ (analyzeMarket h).confidence ≤ 100) ∧
    ((analyzeMarket h).signal = Signal.WAIT → (analyzeMarket h).confidence = 0) ∧
    ((analyzeMarket h).signal = Signal.LONG ∨ (analyzeMarket h).signal = Signal.SHORT →
      50 ≤ (analyzeMarket h).confidence ∧ (analyzeMarket h).confidence ≤ 90) := by
  have key : ((analyzeMarket h).signal = Signal.WAIT ∧ (analyzeMarket h).confidence = 0) ∨
      ((analyzeMarket h).signal ≠ Signal.WAIT ∧ 50 ≤ (analyzeMarket h).confidence ∧
        (analyzeMarket h).confidence ≤ 90) := by
    by_cases hlen : h.length < 20
    · left
      unfold analyzeMarket
      rw [if_pos hlen]
      exact ⟨rfl, rfl⟩
    · have hlen2 : 20 ≤ h.length := not_lt.mp hlen
      rw [analyzeMarket_signal h hlen2, analyzeMarket_confidence h hlen2]
      split_ifs with hov
      · left; exact ⟨rfl, rfl⟩
      · exact trendRules_confidence_range _ _ _ _ _ _
  rcases key with ⟨hs, hc⟩ | ⟨hs, hlo, hhi⟩
  · refine ⟨⟨by rw [hc], by rw [hc]; norm_num⟩, fun _ => hc, ?_⟩
    intro hls
    rw [hs] at hls
    exact absurd hls (by decide)
  · refine ⟨⟨by linarith, by linarith⟩, fun hw => absurd hw hs, fun _ => ⟨hlo, hhi⟩⟩

theorem analyzeMarket_confidence_range_witness :
    (analyzeMarket rising20).signal = Signal.LONG ∧
    (50 ≤ (analyzeMarket rising20).confidence ∧ (analyzeMarket rising20).confidence ≤ 90) ∧
    (analyzeMarket constant50).signal = Signal.WAIT ∧
    (analyzeMarket constant50).confidence = 0 :=
  ⟨by decide!,
   (analyzeMarket_confidence_range rising20).2.2 (Or.inl (by decide!)),
   by decide!,
   (analyzeMarket_confidence_range constant50).2.1 (by decide!)⟩

/-- C29: on a history of at least 20 positive samples, a `LONG` result implies
`momentum > 0`, `ma5 > ma10`, `current > ma10` and volatility percent at least
`0.05`, and a `SHORT` result implies `momentum < 0`, `ma5 < ma10`,
`current < ma10` and volatility percent at least `0.05`.  Since momentum is the
current sample minus the sample at index `length - 6`, `LONG` is never returned
when the current sample is not above that sample, nor `SHORT` when it is not
below it. -/
theorem analyzeMarket_signal_sound (h : List ℚ) (hlen : 20 ≤ h.length)
    (_hpos : ∀ x ∈ h, 0 < x) :
    ((analyzeMarket h).signal = Signal.LONG →
      (computeIndicators h).momentum > 0 ∧
      (computeIndicators h).ma5 > (computeIndicators h).ma10 ∧
      (computeIndicators h).currentPrice > (computeIndicators h).ma10 ∧
      5 / 100 ≤ (computeIndicators h).volatilityPercent ∧
      idx h (h.length - 6) < idx h (h.length - 1)) ∧
    ((analyzeMarket h).signal = Signal.SHORT →
      (computeIndicators h).momentum < 0 ∧
      (computeIndicators h).ma5 < (computeIndicators h).ma10 ∧
      (computeIndicators h).currentPrice < (computeIndicators h).ma10 ∧
      5 / 100 ≤ (computeIndicators h).volatilityPercent ∧
      idx h (h.length - 1) < idx h (h.length - 6)) := by
  have hmom : (computeIndicators h).momentum = idx h (h.length - 1) - idx h (h.length - 6) :=
    rfl
  constructor
  · intro hl
    rw [analyzeMarket_signal h hlen] at hl
    split_ifs at hl with hov
    have hsound := trendRules_long_sound _ _ _ _ _ _ hl
    have hvol : 5 / 100 ≤ (computeIndicators h).volatilityPercent := by
      by_contra hcon
      exact hov ⟨not_le.mp hcon, by rw [hl]; decide⟩
    refine ⟨hsound.1, hsound.2.1, hsound.2.2, hvol, ?_⟩
    have := hsound.1
    rw [hmom] at this
    linarith
  · intro hl
    rw [analyzeMarket_signal h hlen] at hl
    split_ifs at hl with hov
    have hsound := trendRules_short_sound _ _ _ _ _ _ hl
    have hvol : 5 / 100 ≤ (computeIndicators h).volatilityPercent := by
      by_contra hcon
      exact hov ⟨not_le.mp hcon, by rw [hl]; decide⟩
    refine ⟨hsound.1, hsound.2.1, hsound.2.2, hvol, ?_⟩
    have := hsound.1
    rw [hmom] at this
    linarith

theorem analyzeMarket_signal_sound_witness :
    ((computeIndicators rising20).momentum > 0 ∧
      (computeIndicators rising20).ma5 > (computeIndicators rising20).ma10 ∧
      (computeIndicators rising20).currentPrice > (computeIndicators rising20).ma10 ∧
      5 / 100 ≤ (computeIndicators rising20).volatilityPercent ∧
      idx rising20 (rising20.length - 6) < idx rising20 (rising20.length - 1)) ∧
    ((computeIndicators falling20).momentum < 0 ∧
      (computeIndicators falling20).ma5 < (computeIndicators falling20).ma10 ∧
      (computeIndicators falling20).currentPrice < (computeIndicators falling20).ma10 ∧
      5 / 100 ≤ (computeIndicators falling20).volatilityPercent ∧
      idx falling20 (falling20.length - 1) < idx falling20 (falling20.length - 6)) :=
  ⟨(analyzeMarket_signal_sound rising20 (by decide) (by decide!)).1 (by decide!),
   (analyzeMarket_signal_sound falling20 (by decide) (by decide!)).2 (by decide!)⟩

/-! ## Strictly increasing histories -/

theorem idx_append_right (pre l : List ℚ) (i : ℕ) :
    idx (pre ++ l) (pre.length + i) = idx l i := by
  unfold idx
  rw [List.getD_eq_getElem?_getD, List.getD_eq_getElem?_getD,
    List.getElem?_append_right (Nat.le_add_right _ _), Nat.add_sub_cancel_left]

theorem calculateMovingAverage_append_of_length (pre l : List ℚ) (k : ℕ)
    (hk : l.length = k) (hk0 : k ≠ 0) :
    calculateMovingAverage (pre ++ l) k = l.sum / k := by
  subst hk
  exact calculateMovingAverage_append pre l (fun he => hk0 (by rw [he]; rfl))

theorem increasing_window_facts (h : List ℚ) (hlen : 20 ≤ h.length)
    (hinc : List.Chain' (· < ·) h) :
    calculateMovingAverage h 5 > calculateMovingAverage h 10 ∧
    calculateMovingAverage h 10 > calculateMovingAverage h 20 ∧
    idx h (h.length - 1) - idx h (h.length - 6) > 0 := by
  obtain ⟨hsplit, hl20⟩ := split_last h 20 hlen
  have hchain : List.Chain' (· < ·) (h.drop (h.length - 20)) := hinc.drop _
  generalize h.take (h.length - 20) = pre at hsplit
  generalize h.drop (h.length - 20) = l at hsplit hl20 hchain
  match l, hl20, hchain with
  | [x1, x2, x3, x4, x5, x6, x7, x8, x9, x10,
     x11, x12, x13, x14, x15, x16, x17, x18, x19, x20], _, hchain =>
    subst hsplit
    simp only [List.chain'_cons, List.chain'_singleton, and_true] at hchain
    obtain ⟨c1, c2, c3, c4, c5, c6, c7, c8, c9, c10,
      c11, c12, c13, c14, c15, c16, c17, c18, c19⟩ := hchain
    have e10 : pre ++ [x1, x2, x3, x4, x5, x6, x7, x8, x9, x10,
        x11, x12, x13, x14, x15, x16, x17, x18, x19, x20] =
        (pre ++ [x1, x2, x3, x4, x5, x6, x7, x8, x9, x10]) ++
          [x11, x12, x13, x14, x15, x16, x17, x18, x19, x20] := by simp
    have e5 : pre ++ [x1, x2, x3, x4, x5, x6, x7, x8, x9, x10,
        x11, x12, x13, x14, x15, x16, x17, x18, x19, x20] =
        (pre ++ [x1, x2, x3, x4, x5, x6, x7, x8, x9, x10,
          x11, x12, x13, x14, x15]) ++ [x16, x17, x18, x19, x20] := by simp
    have h20 : calculateMovingAverage (pre ++ [x1, x2, x3, x4, x5, x6, x7, x8, x9, x10,
        x11, x12, x13, x14, x15, x16, x17, x18, x19, x20]) 20 =
        (x1 + x2 + x3 + x4 + x5 + x6 + x7 + x8 + x9 + x10 +
          x11 + x12 + x13 + x14 + x15 + x16 + x17 + x18 + x19 + x20) / 20 := by
      rw [calculateMovingAverage_append_of_length pre
        [x1, x2, x3, x4, x5, x6, x7, x8, x9, x10,
         x11, x12, x13, x14, x15, x16, x17, x18, x19, x20] 20 rfl (by decide)]
      simp only [List.sum_cons, List.sum_nil, Nat.cast_ofNat]
      ring
    have h10 : calculateMovingAverage (pre ++ [x1, x2, x3, x4, x5, x6, x7, x8, x9, x10,
        x11, x12, x13, x14, x15, x16, x17, x18, x19, x20]) 10 =
        (x11 + x12 + x13 + x14 + x15 + x16 + x17 + x18 + x19 + x20) / 10 := by
      rw [e10, calculateMovingAverage_append_of_length
        (pre ++ [x1, x2, x3, x4, x5, x6, x7, x8, x9, x10])
        [x11, x12, x13, x14, x15, x16, x17, x18, x19, x20] 10 rfl (by decide)]
      simp only [List.sum_cons, List.sum_nil, Nat.cast_ofNat]
      ring
    have h5 : calculateMovingAverage (pre ++ [x1, x2, x3, x4, x5, x6, x7, x8, x9, x10,
        x11, x12, x13, x14, x15, x16, x17, x18, x19, x20]) 5 =
        (x16 + x17 + x18 + x19 + x20) / 5 := by
      rw [e5, calculateMovingAverage_append_of_length
        (pre ++ [x1, x2, x3, x4, x5, x6, x7, x8, x9, x10, x11, x12, x13, x14, x15])
        [x16, x17, x18, x19, x20] 5 rfl (by decide)]
      simp only [List.sum_cons, List.sum_nil, Nat.cast_ofNat]
      ring
    have hcur : idx (pre ++ [x1, x2, x3, x4, x5, x6, x7, x8, x9, x10,
        x11, x12, x13, x14, x15, x16, x17, x18, x19, x20])
        ((pre ++ [x1, x2, x3, x4, x5, x6, x7, x8, x9, x10,
          x11, x12, x13, x14, x15, x16, x17, x18, x19, x20]).length - 1) = x20 := by
      have e : (pre ++ [x1, x2, x3, x4, x5, x6, x7, x8, x9, x10,
          x11, x12, x13, x14, x15, x16, x17, x18, x19, x20]).length - 1 = pre.length + 19 := by
        simp only [List.length_append, List.length_cons, List.length_nil]
        omega
      rw [e, idx_append_right]
      rfl
    have hold : idx (pre ++ [x1, x2, x3, x4, x5, x6, x7, x8, x9, x10,
        x11, x12, x13, x14, x15, x16, x17, x18, x19, x20])
        ((pre ++ [x1, x2, x3, x4, x5, x6, x7, x8, x9, x10,
          x11, x12, x13, x14, x15, x16, x17, x18, x19, x20]).length - 6) = x15 := by
      have e : (pre ++ [x1, x2, x3, x4, x5, x6, x7, x8, x9, x10,
          x11, x12, x13, x14, x15, x16, x17, x18, x19, x20]).length - 6 = pre.length + 14 := by
        simp only [List.length_append, List.length_cons, List.length_nil]
        omega
      rw [e, idx_append_right]
      rfl
    rw [h20, h10, h5, hcur, hold]
    refine ⟨?_, ?_, ?_⟩
    · rw [gt_iff_lt, div_lt_div_iff₀ (by norm_num) (by norm_num)]
      linarith
    · rw [gt_iff_lt, div_lt_div_iff₀ (by norm_num) (by norm_num)]
      linarith
    · linarith

/-- C30: on a strictly increasing history of at least 20 positive samples,
`ma5 > ma10 > ma20`, `momentum > 0` and `current > ma5` all hold, so
`analyzeMarket` returns `LONG` exactly when the volatility percent (greatest
minus least of the last ten samples, over the current sample, times 100) is at
least `0.05`, and returns `WAIT` with confidence `0` otherwise. -/
theorem analyzeMarket_increasing_iff (h : List ℚ) (hlen : 20 ≤ h.length)
    (_hpos : ∀ x ∈ h, 0 < x) (hinc : List.Chain' (· < ·) h) :
    ((computeIndicators h).ma5 > (computeIndicators h).ma10 ∧
      (computeIndicators h).ma10 > (computeIndicators h).ma20 ∧
      (computeIndicators h).momentum > 0 ∧
      (computeIndicators h).currentPrice > (computeIndicators h).ma5) ∧
    (computeIndicators h).volatilityPercent =
      (mathMax (h.drop (h.length - 10)) - mathMin (h.drop (h.length - 10))) /
        idx h (h.length - 1) * 100 ∧
    ((analyzeMarket h).signal = Signal.LONG ↔
      5 / 100 ≤ (computeIndicators h).volatilityPercent) ∧
    (¬ (5 / 100 ≤ (computeIndicators h).volatilityPercent) →
      (analyzeMarket h).signal = Signal.WAIT ∧ (analyzeMarket h).confidence = 0) := by
  have hfacts := increasing_window_facts h hlen hinc
  have hma1 : (computeIndicators h).ma5 > (computeIndicators h).ma10 := hfacts.1
  have hma2 : (computeIndicators h).ma10 > (computeIndicators h).ma20 := hfacts.2.1
  have hmom : (computeIndicators h).momentum > 0 := hfacts.2.2
  have hcur : (computeIndicators h).currentPrice > (computeIndicators h).ma5 :=
    current_gt_ma5_of_increasing h (by omega) hinc
  have hrule := @trendRules_strong_long _ _ _ _ _
    (computeIndicators h).momentumPercent hma1 hma2 hmom hcur
  have hvoleq : (computeIndicators h).volatilityPercent =
      (mathMax (h.drop (h.length - 10)) - mathMin (h.drop (h.length - 10))) /
        idx h (h.length - 1) * 100 := by
    simp only [computeIndicators, sliceLast]
    rw [if_neg (by decide)]
  have hlow : ¬ (5 / 100 ≤ (computeIndicators h).volatilityPercent) →
      (analyzeMarket h).signal = Signal.WAIT ∧ (analyzeMarket h).confidence = 0 := by
    intro hnot
    have hlt : (computeIndicators h).volatilityPercent < 5 / 100 := not_le.mp hnot
    have hne : (trendRules (computeIndicators h).ma5 (computeIndicators h).ma10
        (computeIndicators h).ma20 (computeIndicators h).currentPrice
        (computeIndicators h).momentum (computeIndicators h).momentumPercent).1
          ≠ Signal.WAIT := by
      rw [hrule.1]; decide
    rw [analyzeMarket_signal h hlen, analyzeMarket_confidence h hlen,
      if_pos ⟨hlt, hne⟩, if_pos ⟨hlt, hne⟩]
    exact ⟨rfl, rfl⟩
  refine ⟨⟨hma1, hma2, hmom, hcur⟩, hvoleq, ⟨?_, ?_⟩, hlow⟩
  · intro hl
    by_contra hnot
    rw [(hlow hnot).1] at hl
    exact absurd hl (by decide)
  · intro hvol
    rw [(analyzeMarket_of_volatile h hlen hvol).1]
    exact hrule.1

theorem analyzeMarket_increasing_iff_witness :
    (analyzeMarket rising20).signal = Signal.LONG ∧
    ((analyzeMarket lowVolatility20).signal = Signal.WAIT ∧
      (analyzeMarket lowVolatility20).confidence = 0) :=
  ⟨(analyzeMarket_increasing_iff rising20 (by decide) (by decide!)
      rising20_increasing).2.2.1.mpr (by decide!),
   (analyzeMarket_increasing_iff lowVolatility20 (by decide) (by decide!)
      lowVolatility20_increasing).2.2.2 (by decide!)⟩

/-! ## Capital accounting -/

theorem closePosition_accounting (s : State) (x : ℚ) (now : ℕ)
    (hcap : s.tradingCapital = 10000000 + (s.tradeHistory.map (fun r => r.profitLoss)).sum)
    (hlast : ∀ r, s.tradeHistory.getLast? = some r → r.capitalAfter = s.tradingCapital) :
    (closePosition s x now).tradingCapital =
      10000000 + ((closePosition s x now).tradeHistory.map (fun r => r.profitLoss)).sum ∧
    (∀ r, (closePosition s x now).tradeHistory.getLast? = some r →
      r.capitalAfter = (closePosition s x now).tradingCapital) := by
  cases hpos : s.currentPosition with
  | none =>
    have hs : closePosition s x now = s := by
      unfold closePosition
      rw [hpos]
    rw [hs]
    exact ⟨hcap, hlast⟩
  | some pos =>
    simp only [closePosition, hpos, List.map_append, List.map_cons, List.map_nil,
      List.sum_append, List.sum_cons, List.sum_nil, List.getLast?_concat, add_zero]
    refine ⟨?_, ?_⟩
    · rw [hcap]; ring
    · intro r hr
      rw [← Option.some.inj hr]

theorem executeTrade_accounting (s : State) (now : ℕ)
    (hcap : s.tradingCapital = 10000000 + (s.tradeHistory.map (fun r => r.profitLoss)).sum)
    (hlast : ∀ r, s.tradeHistory.getLast? = some r → r.capitalAfter = s.tradingCapital) :
    (executeTrade s now).tradingCapital =
      10000000 + ((executeTrade s now).tradeHistory.map (fun r => r.profitLoss)).sum ∧
    (∀ r, (executeTrade s now).tradeHistory.getLast? = some r →
      r.capitalAfter = (executeTrade s now).tradingCapital) := by
  by_cases hc : s.tradingCapital ≤ 0
  · rw [executeTrade_of_nonpos s now hc]
    exact ⟨hcap, hlast⟩
  · have hc2 : 0 < s.tradingCapital := not_le.mp hc
    cases hpos : s.currentPosition with
    | some pos =>
      rw [executeTrade_of_open s now pos hc2 hpos]
      exact closePosition_accounting s _ now hcap hlast
    | none =>
      rw [executeTrade_of_none s now hc2 hpos]
      split_ifs
      · exact ⟨hcap, hlast⟩
      · exact ⟨hcap, hlast⟩

theorem applyAction_accounting (s : State) (a : Action)
    (hcap : s.tradingCapital = 10000000 + (s.tradeHistory.map (fun r => r.profitLoss)).sum)
    (hlast : ∀ r, s.tradeHistory.getLast? = some r → r.capitalAfter = s.tradingCapital) :
    (applyAction s a).tradingCapital =
      10000000 + ((applyAction s a).tradeHistory.map (fun r => r.profitLoss)).sum ∧
    (∀ r, (applyAction s a).tradeHistory.getLast? = some r →
      r.capitalAfter = (applyAction s a).tradingCapital) := by
  cases a with
  | push p => exact ⟨hcap, hlast⟩
  | openPos type price now => exact ⟨hcap, hlast⟩
  | closePos exitPrice now => exact closePosition_accounting s exitPrice now hcap hlast
  | trade now => exact executeTrade_accounting s now hcap hlast

theorem runActions_accounting (actions : List Action) :
    ∀ s : State,
      s.tradingCapital = 10000000 + (s.tradeHistory.map (fun r => r.profitLoss)).sum →
      (∀ r, s.tradeHistory.getLast? = some r → r.capitalAfter = s.tradingCapital) →
      (runActions s actions).tradingCapital =
        10000000 + ((runActions s actions).tradeHistory.map (fun r => r.profitLoss)).sum ∧
      (∀ r, (runActions s actions).tradeHistory.getLast? = some r →
        r.capitalAfter = (runActions s actions).tradingCapital) := by
  induction actions with
  | nil => intro s hcap hlast; exact ⟨hcap, hlast⟩
  | cons a rest ih =>
    intro s hcap hlast
    obtain ⟨h1, h2⟩ := applyAction_accounting s a hcap hlast
    exact ih (applyAction s a) h1 h2

/-- C28: in every state reached from the initial state by price refreshes,
`openPosition`, `closePosition` and `executeTrade` calls, the capital equals
`10,000,000` plus the sum of `profitLoss` over the trade records, the last
record (if any) has `capitalAfter` equal to the current capital, and a
`closePosition` call made there with a position open yields the old history
followed by exactly one new record. -/
theorem capital_accounting (actions : List Action) :
    (runActions initialState actions).tradingCapital =
      10000000 +
        ((runActions initialState actions).tradeHistory.map (fun r => r.profitLoss)).sum ∧
    (∀ r, (runActions initialState actions).tradeHistory.getLast? = some r →
      r.capitalAfter = (runActions initialState actions).tradingCapital) ∧
    (∀ (pos : Position) (x : ℚ) (now : ℕ),
      (runActions initialState actions).currentPosition = some pos →
      ∃ r, (closePosition (runActions initialState actions) x now).tradeHistory =
        (runActions initialState actions).tradeHistory ++ [r]) := by
  obtain ⟨h1, h2⟩ := runActions_accounting actions initialState
    (by simp [initialState]) (by simp [initialState])
  refine ⟨h1, h2, ?_⟩
  intro pos x now hpos
  simp only [closePosition, hpos]
  exact ⟨_, rfl⟩

theorem capital_accounting_witness :
    (runActions initialState tradedActions).tradeHistory.length = 2 ∧
    (runActions initialState tradedActions).tradingCapital =
      10000000 +
        ((runActions initialState tradedActions).tradeHistory.map
          (fun r => r.profitLoss)).sum ∧
    (runActions initialState tradedActions).tradeHistory.getLast?.map
        (fun r => r.capitalAfter) =
      some (runActions initialState tradedActions).tradingCapital := by
  have hw := capital_accounting tradedActions
  refine ⟨by decide!, hw.1, ?_⟩
  cases hlast : (runActions initialState tradedActions).tradeHistory.getLast? with
  | none => exact absurd hlast (by decide!)
  | some r => simp only [Option.map_some', hw.2.1 r hlast]

end GoldTracker

/-! # Browser dice game: holding with nothing rolled -/

namespace DiceGame

/-- C23: `hold()` invoked while `turnScore` is `0` only shows the warning
`"You need to roll at least once before holding!"`: both total scores, the
current player and the turn score are unchanged, no winner is announced, the
buttons stay as they were and no turn change is scheduled. -/
theorem hold_rejected_when_turnScore_zero (g : Game) (hz : g.turnScore = 0) :
    hold g =
      { g with message := some ("You need to roll at least once before holding!", "warning") } ∧
    (hold g).player1Score = g.player1Score ∧
    (hold g).player2Score = g.player2Score ∧
    (hold g).currentPlayer = g.currentPlayer ∧
    (hold g).turnScore = g.turnScore ∧
    (hold g).winner = g.winner ∧
    (hold g).buttonsDisabled = g.buttonsDisabled ∧
    (hold g).switchPending = g.switchPending := by
  have hh : hold g =
      { g with
        message := some ("You need to roll at least once before holding!", "warning") } := by
    unfold hold
    rw [if_pos hz]
    rfl
  rw [hh]
  exact ⟨rfl, rfl, rfl, rfl, rfl, rfl, rfl, rfl⟩

theorem hold_rejected_when_turnScore_zero_witness :
    (hold midGame).message =
      some ("You need to roll at least once before holding!", "warning") ∧
    (hold midGame).player1Score = 12 ∧
    (hold midGame).player2Score = 7 ∧
    (hold midGame).currentPlayer = 2 ∧
    (hold midGame).turnScore = 0 ∧
    (hold midGame).winner = none ∧
    (hold midGame).switchPending = false := by
  have hw := hold_rejected_when_turnScore_zero midGame rfl
  refine ⟨by rw [hw.1], hw.2.1, hw.2.2.1, hw.2.2.2.1, hw.2.2.2.2.1, hw.2.2.2.2.2.1,
    hw.2.2.2.2.2.2.2⟩

end DiceGame

/-! # Terminal dice game helpers -/

namespace PigDice

theorem includesChars_iff_infix (s sub : List Char) :
    includesChars s sub = true ↔ sub <:+: s := by
  induction s with
  | nil =>
    simp only [includesChars, List.isEmpty_iff, List.infix_nil]
  | cons c cs ih =>
    simp only [includesChars, Bool.or_eq_true, List.isPrefixOf_iff_prefix, ih,
      List.infix_cons_iff]

/-- C24: `processTurn r t` is `{turnScore: 0, turnOver: true}` when `r = 1` and
`{turnScore: t + r, turnOver: false}` otherwise; in particular
`processTurn 5 10 = {15, false}`, `processTurn 1 10 = {0, true}` and
`processTurn 3 0 = {3, false}`. -/
theorem processTurn_spec (r t : ℚ) :
    (r = 1 → processTurn r t = { turnScore := 0, turnOver := true }) ∧
    (r ≠ 1 → processTurn r t = { turnScore := t + r, turnOver := false }) ∧
    processTurn 5 10 = { turnScore := 15, turnOver := false } ∧
    processTurn 1 10 = { turnScore := 0, turnOver := true } ∧
    processTurn 3 0 = { turnScore := 3, turnOver := false } := by
  refine ⟨?_, ?_, by decide!, by decide!, by decide!⟩
  · intro h1
    unfold processTurn
    rw [if_pos h1]
  · intro h1
    unfold processTurn
    rw [if_neg h1]

theorem processTurn_spec_witness :
    processTurn 1 10 = { turnScore := 0, turnOver := true } ∧
    processTurn 6 4 = { turnScore := 4 + 6, turnOver := false } :=
  ⟨(processTurn_spec 1 10).1 rfl, (processTurn_spec 6 4).2.1 (by decide!)⟩

/-- C25: the text returned by `getRules()` does not contain `"first to reach 20"`
(its last rule reads `"First player to reach 20 points wins!"`), so the first
documented example `rules.includes("first to reach 20")` is `false`; the text
does contain `"roll a 1"`. -/
theorem getRules_lacks_documented_phrase :
    includes getRules "first to reach 20" = false ∧
    ¬ ("first to reach 20".data <:+: getRules.data) ∧
    includes getRules "First player to reach 20" = true ∧
    includes getRules "roll a 1" = true ∧
    "roll a 1".data <:+: getRules.data := by
  decide!

/-- C26: the string returned by `displayDice(6)` does not contain `"● ● ●"` (each
of its three pip rows is `"│  ●   ●  │"`, two pips three spaces apart), so the
documented example `dice6.includes("● ● ●")` is `false`; `displayDice(1)` does
contain `"●"`. -/
theorem displayDice_six_lacks_documented_pips :
    includes (displayDice 6) "● ● ●" = false ∧
    ¬ ("● ● ●".data <:+: (displayDice 6).data) ∧
    includes (displayDice 6) "●   ●" = true ∧
    includes (displayDice 1) "●" = true ∧
    "●".data <:+: (displayDice 1).data := by
  decide!

end PigDice

/-! # Area formulas: Heron -/

namespace AreaUtils

theorem roundDouble_examples :
    roundDouble (1 / 10) = 3602879701896397 / 36028797018963968 ∧
    roundDouble 9007199254740993 = 9007199254740992 ∧
    roundDouble 9007199254740995 = 9007199254740996 ∧
    roundDouble 10000000000000001 = 10000000000000000 ∧
    roundDouble 20000000000000002 = 20000000000000000 ∧
    roundDouble (-3) = -3 ∧
    roundDouble (1 / 2 ^ 1074) = 1 / 2 ^ 1074 ∧
    roundDouble (1 / 2 ^ 1200) = 0 := by
  decide!

/-- C27, as stated, fails on the source's numbers.  The sides
`(1e16, 1, 1e16)` are doubles, all positive, and no two of them sum to at most
the third, yet the function throws: `1e16 + 1` rounds to `1e16`, so
`a + b <= c` holds.  The sides `(1e16, 2, 1e16)` are accepted, but
`(a + b) + c` rounds to `2e16`, `s` is `1e16`, `s - a` is `0` and the radicand
is `0`, not strictly positive, so the area is `0`.  The equilateral sides
`(2^-300, 2^-300, 2^-300)` are accepted too and the product underflows to `0`. -/
theorem triangleAreaHeron_rounding_counterexample :
    (roundDouble 10000000000000000 = 10000000000000000 ∧ roundDouble 1 = 1 ∧
      roundDouble 2 = 2) ∧
    (¬ ((10000000000000000 : ℚ) ≤ 0 ∨ (1 : ℚ) ≤ 0 ∨ (10000000000000000 : ℚ) ≤ 0 ∨
        (10000000000000000 : ℚ) + 1 ≤ 10000000000000000 ∨
        (10000000000000000 : ℚ) + 10000000000000000 ≤ 1 ∨
        (1 : ℚ) + 10000000000000000 ≤ 10000000000000000) ∧
      triangleAreaHeron roundDouble 10000000000000000 1 10000000000000000 =
        Except.error "Ba cạnh không tạo thành tam giác hợp lệ") ∧
    (triangleAreaHeron roundDouble 10000000000000000 2 10000000000000000 =
        Except.ok { radicand := 0 } ∧
      ¬ ((0 : ℚ) < ({ radicand := 0 } : SquareRoot).radicand)) ∧
    (roundDouble (1 / 2 ^ 300) = 1 / 2 ^ 300 ∧
      triangleAreaHeron roundDouble (1 / 2 ^ 300) (1 / 2 ^ 300) (1 / 2 ^ 300) =
        Except.ok { radicand := 0 }) := by
  decide!

/-- C27, amended: on inputs for which no arithmetic step rounds (every sum,
difference, product and the halving that the function computes is returned
exactly, as over exact arithmetic), `triangleAreaHeron a b c` throws exactly
when some side is at most `0` or some two sides sum to at most the third;
otherwise it returns the square root of `s * (s - a) * (s - b) * (s - c)` with
`s = (a + b + c) / 2`, that radicand is strictly positive, and so is its square
root, the area. -/
theorem triangleAreaHeron_spec (fl : ℚ → ℚ) (a b c : ℚ)
    (hab : fl (a + b) = a + b) (hac : fl (a + c) = a + c) (hbc : fl (b + c) = b + c)
    (hsum : fl (a + b + c) = a + b + c)
    (hhalf : fl ((a + b + c) / 2) = (a + b + c) / 2)
    (hsa : fl ((a + b + c) / 2 - a) = (a + b + c) / 2 - a)
    (hsb : fl ((a + b + c) / 2 - b) = (a + b + c) / 2 - b)
    (hsc : fl ((a + b + c) / 2 - c) = (a + b + c) / 2 - c)
    (hp1 : fl ((a + b + c) / 2 * ((a + b + c) / 2 - a)) =
      (a + b + c) / 2 * ((a + b + c) / 2 - a))
    (hp2 : fl ((a + b + c) / 2 * ((a + b + c) / 2 - a) * ((a + b + c) / 2 - b)) =
      (a + b + c) / 2 * ((a + b + c) / 2 - a) * ((a + b + c) / 2 - b))
    (hp3 : fl ((a + b + c) / 2 * ((a + b + c) / 2 - a) * ((a + b + c) / 2 - b) *
        ((a + b + c) / 2 - c)) =
      (a + b + c) / 2 * ((a + b + c) / 2 - a) * ((a + b + c) / 2 - b) *
        ((a + b + c) / 2 - c)) :
    ((∃ msg, triangleAreaHeron fl a b c = Except.error msg) ↔
      (a ≤ 0 ∨ b ≤ 0 ∨ c ≤ 0 ∨ a + b ≤ c ∨ a + c ≤ b ∨ b + c ≤ a)) ∧
    (¬ (a ≤ 0 ∨ b ≤ 0 ∨ c ≤ 0 ∨ a + b ≤ c ∨ a + c ≤ b ∨ b + c ≤ a) →
      triangleAreaHeron fl a b c =
        Except.ok
          { radicand :=
              (a + b + c) / 2 * ((a + b + c) / 2 - a) * ((a + b + c) / 2 - b) *
                ((a + b + c) / 2 - c) }) ∧
    (∀ r, triangleAreaHeron fl a b c = Except.ok r →
      r.radicand =
        (a + b + c) / 2 * ((a + b + c) / 2 - a) * ((a + b + c) / 2 - b) *
          ((a + b + c) / 2 - c) ∧
      0 < r.radicand ∧ 0 < Real.sqrt (r.radicand : ℝ)) := by
  by_cases h1 : a ≤ 0 ∨ b ≤ 0 ∨ c ≤ 0
  · have hres : triangleAreaHeron fl a b c = Except.error "Các cạnh phải lớn hơn 0" := by
      unfold triangleAreaHeron
      rw [if_pos h1]
    have hcond : a ≤ 0 ∨ b ≤ 0 ∨ c ≤ 0 ∨ a + b ≤ c ∨ a + c ≤ b ∨ b + c ≤ a := by
      rcases h1 with h | h | h
      · exact Or.inl h
      · exact Or.inr (Or.inl h)
      · exact Or.inr (Or.inr (Or.inl h))
    refine ⟨⟨fun _ => hcond, fun _ => ⟨_, hres⟩⟩, fun hn => absurd hcond hn, ?_⟩
    intro r hr
    rw [hres] at hr
    exact absurd hr (by simp)
  · by_cases h2 : a + b ≤ c ∨ a + c ≤ b ∨ b + c ≤ a
    · have hres : triangleAreaHeron fl a b c =
          Except.error "Ba cạnh không tạo thành tam giác hợp lệ" := by
        unfold triangleAreaHeron
        rw [if_neg h1, hab, hac, hbc, if_pos h2]
      have hcond : a ≤ 0 ∨ b ≤ 0 ∨ c ≤ 0 ∨ a + b ≤ c ∨ a + c ≤ b ∨ b + c ≤ a :=
        Or.inr (Or.inr (Or.inr h2))
      refine ⟨⟨fun _ => hcond, fun _ => ⟨_, hres⟩⟩, fun hn => absurd hcond hn, ?_⟩
      intro r hr
      rw [hres] at hr
      exact absurd hr (by simp)
    · have hres : triangleAreaHeron fl a b c =
          Except.ok
            { radicand :=
                (a + b + c) / 2 * ((a + b + c) / 2 - a) * ((a + b + c) / 2 - b) *
                  ((a + b + c) / 2 - c) } := by
        unfold triangleAreaHeron
        rw [if_neg h1, hab, hac, hbc, if_neg h2]
        simp only [hsum, hhalf, hsa, hsb, hsc, hp1, hp2, hp3]
      have hncond : ¬ (a ≤ 0 ∨ b ≤ 0 ∨ c ≤ 0 ∨ a + b ≤ c ∨ a + c ≤ b ∨ b + c ≤ a) := by
        intro hc
        rcases hc with h | h | h | h | h | h
        · exact h1 (Or.inl h)
        · exact h1 (Or.inr (Or.inl h))
        · exact h1 (Or.inr (Or.inr h))
        · exact h2 (Or.inl h)
        · exact h2 (Or.inr (Or.inl h))
        · exact h2 (Or.inr (Or.inr h))
      have ha : 0 < a := not_le.mp (fun h => h1 (Or.inl h))
      have hb : 0 < b := not_le.mp (fun h => h1 (Or.inr (Or.inl h)))
      have hc : 0 < c := not_le.mp (fun h => h1 (Or.inr (Or.inr h)))
      have hab2 : c < a + b := not_le.mp (fun h => h2 (Or.inl h))
      have hac2 : b < a + c := not_le.mp (fun h => h2 (Or.inr (Or.inl h)))
      have hbc2 : a < b + c := not_le.mp (fun h => h2 (Or.inr (Or.inr h)))
      have hs : 0 < (a + b + c) / 2 := by linarith
      have hsa2 : 0 < (a + b + c) / 2 - a := by linarith
      have hsb2 : 0 < (a + b + c) / 2 - b := by linarith
      have hsc2 : 0 < (a + b + c) / 2 - c := by linarith
      have hrad : 0 < (a + b + c) / 2 * ((a + b + c) / 2 - a) * ((a + b + c) / 2 - b) *
          ((a + b + c) / 2 - c) :=
        mul_pos (mul_pos (mul_pos hs hsa2) hsb2) hsc2
      refine ⟨⟨?_, fun hc2 => absurd hc2 hncond⟩, fun _ => hres, ?_⟩
      · rintro ⟨msg, hmsg⟩
        rw [hres] at hmsg
        exact absurd hmsg (by simp)
      · intro r hr
        rw [hres] at hr
        have hreq := Except.ok.inj hr
        rw [← hreq]
        refine ⟨rfl, hrad, ?_⟩
        exact Real.sqrt_pos.mpr (by exact_mod_cast hrad)

theorem triangleAreaHeron_spec_witness :
    triangleAreaHeron roundDouble 3 4 5 = Except.ok { radicand := 36 } ∧
    ((∃ msg, triangleAreaHeron roundDouble 1 2 3 = Except.error msg) ↔
      ((1 : ℚ) ≤ 0 ∨ (2 : ℚ) ≤ 0 ∨ (3 : ℚ) ≤ 0 ∨ (1 : ℚ) + 2 ≤ 3 ∨ (1 : ℚ) + 3 ≤ 2 ∨
        (2 : ℚ) + 3 ≤ 1)) := by
  refine ⟨?_, ?_⟩
  · rw [(triangleAreaHeron_spec roundDouble 3 4 5 (by decide!) (by decide!) (by decide!)
      (by decide!) (by decide!) (by decide!) (by decide!) (by decide!) (by decide!)
      (by decide!) (by decide!)).2.1 (by decide!)]
    decide!
  · exact (triangleAreaHeron_spec roundDouble 1 2 3 (by decide!) (by decide!) (by decide!)
      (by decide!) (by decide!) (by decide!) (by decide!) (by decide!) (by decide!)
      (by decide!) (by decide!)).1

end AreaUtils
